import Mathlib

/-!
Shallow embedding of the `go-bmp` BMP decoder/encoder (`reader.go`, `writer.go`)
and proofs about the behaviour its specification claims.

Streams are finite byte sequences, modelled as `List Nat` whose entries are
byte values (< 256 wherever the code writes them; hypotheses state it where a
theorem needs it). Machine arithmetic (`uint32`, `byte`) is modelled by `Nat`
with explicit `% 2^32` / `% 256` at the points where Go's fixed-width
arithmetic can wrap. Fallible code returns `Except DErr`.
-/

deriving instance DecidableEq for Except

namespace Bmp

/-- Errors a decode can surface.  `format`/`unsupported` mirror `FormatError` and
`UnsupportedError` from `reader.go`; `eof`/`unexpectedEOF` mirror `io.EOF` and
`io.ErrUnexpectedEOF`; `goPanic` marks a Go runtime panic (out-of-range slice
index), which is never a returned error value in Go but aborts the call. -/
inductive DErr where
  | format (s : String)
  | unsupported (s : String)
  | eof
  | unexpectedEOF
  | goPanic
deriving DecidableEq, Repr

/-- `io.ReadFull` over a finite stream: reads exactly `n` bytes.  Returns the
bytes read and the rest of the stream; `io.EOF` when no byte was available and
`n > 0`; `io.ErrUnexpectedEOF` when only part of the bytes were available. -/
def ReadFull (s : List Nat) (n : Nat) : Except DErr (List Nat × List Nat) :=
  if n ≤ s.length then .ok (s.take n, s.drop n)
  else if s.length = 0 then .error .eof
  else .error .unexpectedEOF

/-- `io.ReadFull` followed by the header code's normalization
`if err == io.EOF { err = io.ErrUnexpectedEOF }` (reader.go:87-92, 101-106,
125-130).  The palette read (reader.go:165) and all pixel-data reads use the
raw `ReadFull` instead. -/
def ReadFullH (s : List Nat) (n : Nat) : Except DErr (List Nat × List Nat) :=
  match ReadFull s n with
  | .error .eof => .error .unexpectedEOF
  | r => r

/-- `readUint16` from reader.go: `uint16(b[0]) | uint16(b[1])<<8`.
Takes the (already sliced) byte list, i.e. Go's `readUint16(b[k:])` becomes
`readUint16 (b.drop k)`. -/
def readUint16 (b : List Nat) : Nat :=
  b.getD 0 0 ||| (b.getD 1 0) <<< 8

/-- `readUint32` from reader.go:
`uint32(b[0]) | uint32(b[1])<<8 | uint32(b[2])<<16 | uint32(b[3])<<24`. -/
def readUint32 (b : List Nat) : Nat :=
  b.getD 0 0 ||| (b.getD 1 0) <<< 8 ||| (b.getD 2 0) <<< 16 ||| (b.getD 3 0) <<< 24

/-- Little-endian serialization of a `uint16`, as `binary.Write` with
`binary.LittleEndian` performs for the encoder's header struct. -/
def u16le (n : Nat) : List Nat := [n % 256, n / 2 ^ 8 % 256]

/-- Little-endian serialization of a `uint32`. -/
def u32le (n : Nat) : List Nat :=
  [n % 256, n / 2 ^ 8 % 256, n / 2 ^ 16 % 256, n / 2 ^ 24 % 256]

/-- Go's `int(int32(u))` conversion of a `uint32` value: two's-complement
reinterpretation. -/
def toInt32 (n : Nat) : Int :=
  if n < 2 ^ 31 then (n : Int) else (n : Int) - 2 ^ 32

theorem ReadFull_prefix (a r : List Nat) :
    ReadFull (a ++ r) a.length = .ok (a, r) := by
  simp [ReadFull]

theorem ReadFull_prefix' (a r : List Nat) (n : Nat) (h : a.length = n) :
    ReadFull (a ++ r) n = .ok (a, r) := by
  subst h; exact ReadFull_prefix a r

theorem ReadFullH_prefix' (a r : List Nat) (n : Nat) (h : a.length = n) :
    ReadFullH (a ++ r) n = .ok (a, r) := by
  rw [ReadFullH, ReadFull_prefix' a r n h]

theorem testBit_div_mod256 (x k i : Nat) :
    ((x / 2 ^ k) % 256).testBit i = (decide (i < 8) && x.testBit (k + i)) := by
  have h256 : (256 : Nat) = 2 ^ 8 := by norm_num
  rw [h256, Nat.testBit_mod_two_pow, ← Nat.shiftRight_eq_div_pow, Nat.testBit_shiftRight]

theorem testBit_mod256 (x i : Nat) :
    (x % 256).testBit i = (decide (i < 8) && x.testBit i) := by
  have h := testBit_div_mod256 x 0 i
  simpa using h

theorem testBit_mod2pow32 (x i : Nat) :
    (x % 4294967296).testBit i = (decide (i < 32) && x.testBit i) := by
  have h : (4294967296 : Nat) = 2 ^ 32 := by norm_num
  rw [h, Nat.testBit_mod_two_pow]

theorem testBit_div256 (x i : Nat) : (x / 256).testBit i = x.testBit (8 + i) := by
  have h256 : (256 : Nat) = 2 ^ 8 := by norm_num
  rw [h256, ← Nat.shiftRight_eq_div_pow, Nat.testBit_shiftRight]

theorem testBit_div65536 (x i : Nat) : (x / 65536).testBit i = x.testBit (16 + i) := by
  have h : (65536 : Nat) = 2 ^ 16 := by norm_num
  rw [h, ← Nat.shiftRight_eq_div_pow, Nat.testBit_shiftRight]

theorem testBit_div16777216 (x i : Nat) : (x / 16777216).testBit i = x.testBit (24 + i) := by
  have h : (16777216 : Nat) = 2 ^ 24 := by norm_num
  rw [h, ← Nat.shiftRight_eq_div_pow, Nat.testBit_shiftRight]

theorem readUint16_u16le (n : Nat) (r : List Nat) :
    readUint16 (u16le n ++ r) = n % 2 ^ 16 := by
  apply Nat.eq_of_testBit_eq
  intro i
  have hmod16 : (n % 2 ^ 16).testBit i = (decide (i < 16) && n.testBit i) :=
    Nat.testBit_mod_two_pow n 16 i
  simp only [readUint16, u16le, List.cons_append, List.nil_append, List.getD_cons_zero,
    List.getD_cons_succ, Nat.testBit_or, Nat.testBit_shiftLeft, hmod16,
    testBit_mod256, testBit_div256]
  by_cases h0 : i < 8
  · have n8 : ¬ (8 ≤ i) := by omega
    simp [h0, n8, show i < 16 by omega]
  · by_cases h1 : i < 16
    · have y8 : 8 ≤ i := by omega
      simp [h0, y8, show i - 8 < 8 by omega, testBit_div256, show 8 + (i - 8) = i by omega, h1]
    · have y8 : 8 ≤ i := by omega
      simp [h0, y8, show ¬ (i - 8 < 8) by omega, h1]

theorem readUint32_u32le (n : Nat) (r : List Nat) :
    readUint32 (u32le n ++ r) = n % 2 ^ 32 := by
  apply Nat.eq_of_testBit_eq
  intro i
  have hmod32 : (n % 2 ^ 32).testBit i = (decide (i < 32) && n.testBit i) :=
    Nat.testBit_mod_two_pow n 32 i
  simp only [readUint32, u32le, List.cons_append, List.nil_append, List.getD_cons_zero,
    List.getD_cons_succ, Nat.testBit_or, Nat.testBit_shiftLeft, hmod32,
    testBit_mod256, testBit_div256, testBit_div65536, testBit_div16777216]
  by_cases h0 : i < 8
  · simp [h0, show ¬ (8 ≤ i) by omega, show ¬ (16 ≤ i) by omega, show ¬ (24 ≤ i) by omega,
      show i < 32 by omega]
  · by_cases h1 : i < 16
    · simp [h0, show 8 ≤ i by omega, show ¬ (16 ≤ i) by omega, show ¬ (24 ≤ i) by omega,
        show i - 8 < 8 by omega, testBit_div256, show 8 + (i - 8) = i by omega,
        show i < 32 by omega]
    · by_cases h2 : i < 24
      · simp [h0, show 8 ≤ i by omega, show 16 ≤ i by omega, show ¬ (24 ≤ i) by omega,
          show ¬ (i - 8 < 8) by omega, show i - 16 < 8 by omega, testBit_div65536,
          show 16 + (i - 16) = i by omega, show i < 32 by omega]
      · by_cases h3 : i < 32
        · simp [h0, show 8 ≤ i by omega, show 16 ≤ i by omega, show 24 ≤ i by omega,
            show ¬ (i - 8 < 8) by omega, show ¬ (i - 16 < 8) by omega,
            show i - 24 < 8 by omega, testBit_div16777216, show 24 + (i - 24) = i by omega, h3]
        · simp [h0, show 8 ≤ i by omega, show 16 ≤ i by omega, show 24 ≤ i by omega,
            show ¬ (i - 8 < 8) by omega, show ¬ (i - 16 < 8) by omega,
            show ¬ (i - 24 < 8) by omega, h3]

theorem getD_drop (l : List Nat) (n j : Nat) : (l.drop n).getD j 0 = l.getD (n + j) 0 := by
  induction n generalizing l with
  | zero => simp
  | succ k ih =>
    cases l with
    | nil => simp
    | cons a t =>
      rw [List.drop_succ_cons, ih t, show k + 1 + j = (k + j) + 1 from by omega,
        List.getD_cons_succ]

theorem readUint32_drop (l : List Nat) (k : Nat) :
    readUint32 (l.drop k) =
      l.getD k 0 ||| l.getD (k + 1) 0 <<< 8 ||| l.getD (k + 2) 0 <<< 16 |||
        l.getD (k + 3) 0 <<< 24 := by
  simp [readUint32, getD_drop]

theorem readUint16_drop (l : List Nat) (k : Nat) :
    readUint16 (l.drop k) = l.getD k 0 ||| l.getD (k + 1) 0 <<< 8 := by
  simp [readUint16, getD_drop]

theorem or4_bytes (n : Nat) :
    n % 256 ||| (n / 2 ^ 8 % 256) <<< 8 ||| (n / 2 ^ 16 % 256) <<< 16 |||
      (n / 2 ^ 24 % 256) <<< 24 = n % 2 ^ 32 := by
  have h := readUint32_u32le n []
  simpa [readUint32, u32le] using h

theorem or2_bytes (n : Nat) : n % 256 ||| (n / 2 ^ 8 % 256) <<< 8 = n % 2 ^ 16 := by
  have h := readUint16_u16le n []
  simpa [readUint16, u16le] using h

/-! ## Decoder (reader.go) -/

def fileHeaderLen : Nat := 14
def infoHeaderLen : Nat := 40

/-- A `color.RGBA` value (8-bit channels). -/
structure RGBAc where
  r : Nat
  g : Nat
  b : Nat
  a : Nat
deriving DecidableEq, Repr

/-- The `decoder` state after `DecodeConfig` (reader.go:66-71), plus the
`image.Config`: width, height, and the color model (a palette for indexed
depths, none for the truecolor depths). -/
structure Dec where
  width : Nat
  height : Nat
  palette : Option (List RGBAc)
  bpp : Nat
  topDown : Bool
  rgb565 : Bool
  noAlpha : Bool
  rle : Bool
deriving DecidableEq, Repr

/-- The palette-building loop of reader.go:168-173:
`pcm[i] = color.RGBA{b[4*i+2], b[4*i+1], b[4*i+0], 0xFF}`.
`buf` models the decoder's 1024-byte scratch array `b`; an access at index
`≥ 1024` is an out-of-range panic in Go (`goPanic`). -/
def buildPaletteGo (buf : List Nat) : Nat → Nat → Except DErr (List RGBAc)
  | 0, _ => .ok []
  | count + 1, i =>
    if 4 * i + 2 ≤ 1023 then
      match buildPaletteGo buf count (i + 1) with
      | .error e => .error e
      | .ok rest =>
          .ok (⟨buf.getD (4 * i + 2) 0, buf.getD (4 * i + 1) 0,
                buf.getD (4 * i) 0, 0xFF⟩ :: rest)
    else .error .goPanic

/-- The loop `for i := range pcm`, entry `i` running from 0 while `i < colors`
(the first argument of `buildPaletteGo` counts the remaining entries). -/
def buildPaletteLoop (buf : List Nat) (colors : Nat) : Except DErr (List RGBAc) :=
  buildPaletteGo buf colors 0

/-- `(*decoder).DecodeConfig` (reader.go:73-203), threading the unread rest of
the stream through.  The decoder's 1024-byte scratch array `b` is modelled by
the byte lists actually read into it: `hb` holds `b[0 : 14+infoLen]`, the mask
chunk `mb` holds `b[54:66]` when it is read, and the bytes of `b` beyond what
was written are zero, matching the zero-initialized Go array. -/
def decodeConfig (s : List Nat) : Except DErr (Dec × List Nat) :=
  match ReadFullH s (fileHeaderLen + 4) with
  | .error e => .error e
  | .ok (b18, s1) =>
    if b18.getD 0 0 = 66 ∧ b18.getD 1 0 = 77 then
      let offset := readUint32 (b18.drop 10)
      let infoLen := readUint32 (b18.drop 14)
      if infoLen = 40 ∨ infoLen = 108 ∨ infoLen = 124 then
        match ReadFullH s1 (infoLen - 4) with
        | .error e => .error e
        | .ok (bRest, s2) =>
          let hb := b18 ++ bRest
          let widthI := toInt32 (readUint32 (hb.drop 18))
          let heightI0 := toInt32 (readUint32 (hb.drop 22))
          let topDown : Bool := decide (heightI0 < 0)
          let heightI := if heightI0 < 0 then -heightI0 else heightI0
          if widthI < 0 ∨ heightI < 0 then .error (.unsupported "non-positive dimension")
          else
            let planes := readUint16 (hb.drop 26)
            if planes = 1 then
              let bpp := readUint16 (hb.drop 28)
              let compression0 := readUint32 (hb.drop 30)
              let colors0 := readUint32 (hb.drop 46)
              -- reader.go:121-131: in the BitFields case under the 40-byte DIB
              -- header the three masks are read into b[54:66].
              match (if compression0 = 3 ∧ infoLen = 40 then ReadFullH s2 12
                     else .ok ([], s2)) with
              | .error e => .error e
              | .ok (mb, s3) =>
                let maskBuf := hb ++ mb
                let m1 := readUint32 (maskBuf.drop 54)
                let m2 := readUint32 (maskBuf.drop 58)
                let m3 := readUint32 (maskBuf.drop 62)
                let m4 := readUint32 (maskBuf.drop 66)
                -- reader.go:132-149: Go's switch with fallthrough.  Any of the
                -- three mask matches resets compression to biRGB and, under the
                -- 40-byte header, disables the alpha; rgb565 only on the first.
                let c565 : Bool := decide (bpp = 16 ∧ m1 = 0xF800 ∧ m2 = 0x7E0 ∧ m3 = 0x1F)
                let c555 : Bool := decide (bpp = 16 ∧ m1 = 0x7C00 ∧ m2 = 0x3E0 ∧ m3 = 0x1F)
                let c32 : Bool := decide (bpp = 32 ∧ m1 = 0xFF0000 ∧ m2 = 0xFF00 ∧ m3 = 0xFF ∧
                  (infoLen = 40 ∨ m4 = 0xFF000000))
                let matched : Bool := decide (compression0 = 3) && (c565 || c555 || c32)
                let rgb565 : Bool := decide (compression0 = 3) && c565
                let noAlpha : Bool := matched && decide (infoLen = 40)
                -- reader.go:150-153: the RLE case of the same switch.
                let rleCase : Bool := decide ((bpp = 4 ∧ compression0 = 1) ∨
                  (bpp = 8 ∧ compression0 = 2)) && !topDown
                let compression := if matched || rleCase then 0 else compression0
                if compression = 0 then
                  if bpp = 1 ∨ bpp = 2 ∨ bpp = 4 ∨ bpp = 8 then
                    let colors := if colors0 = 0 then 1 <<< bpp else colors0
                    if offset = (fileHeaderLen + infoLen + colors * 4) % 2 ^ 32 then
                      -- reader.go:165: `io.ReadFull(d.r, b[:colors*4])`.
                      -- `colors*4` is uint32 arithmetic; slicing the 1024-byte
                      -- array beyond its length panics.  The error of this read
                      -- is returned unnormalized.
                      let n := colors * 4 % 2 ^ 32
                      if n ≤ 1024 then
                        match ReadFull s3 n with
                        | .error e => .error e
                        | .ok (pb, s4) =>
                          let buf := pb ++
                            List.drop n (hb ++ List.replicate (1024 - hb.length) 0)
                          match buildPaletteLoop buf colors with
                          | .error e => .error e
                          | .ok pal =>
                            .ok ({ width := widthI.toNat, height := heightI.toNat,
                                   palette := some pal, bpp := bpp, topDown := topDown,
                                   rgb565 := rgb565, noAlpha := noAlpha,
                                   rle := rleCase }, s4)
                      else .error .goPanic
                    else .error (.unsupported "bitmap offset")
                  else if bpp = 16 ∨ bpp = 24 ∨ bpp = 32 then
                    let colorMaskLen := if compression0 = 3 ∧ infoLen = 40 then 12 else 0
                    if offset = (fileHeaderLen + infoLen + colorMaskLen) % 2 ^ 32 then
                      .ok ({ width := widthI.toNat, height := heightI.toNat,
                             palette := none, bpp := bpp, topDown := topDown,
                             rgb565 := rgb565, noAlpha := noAlpha, rle := rleCase }, s3)
                    else .error (.unsupported "bitmap offset")
                  else .error (.unsupported ("bit depth " ++ toString bpp))
                else .error (.unsupported "compression method")
            else .error (.unsupported ("planes " ++ toString planes))
      else .error (.unsupported "DIB header version")
    else .error (.format "not a BMP file")

/-- The decoded image: `image.Paletted`, `image.RGBA` or `image.NRGBA` as
allocated by `image.NewPaletted`/`NewRGBA`/`NewNRGBA` over
`Rect(0,0,width,height)` (stride `width` resp. `4*width`, `pix` in row-major
top-to-bottom order). -/
inductive Img where
  | paletted (width height : Nat) (palette : List RGBAc) (pix : List Nat)
  | rgba (width height : Nat) (pix : List Nat)
  | nrgba (width height : Nat) (pix : List Nat)
deriving DecidableEq, Repr

/-- Reads `count` per-row chunks sequentially with `readRow`, returning them in
stream order.  The Go decoders store the k-th chunk read at row `y0 + k*yDelta`
(reader.go:238, 269, 402, 436, 464): bottom-up that is row `height-1-k`, so the
image's top-to-bottom rows are the reverse of this list. -/
def readRows (readRow : List Nat → Except DErr (List Nat × List Nat)) :
    Nat → List Nat → Except DErr (List (List Nat) × List Nat)
  | 0, s => .ok ([], s)
  | count + 1, s =>
    match readRow s with
    | .error e => .error e
    | .ok (row, s1) =>
      match readRows readRow count s1 with
      | .error e => .error e
      | .ok (rows, s2) => .ok (row :: rows, s2)

/-- `x &^ 3` on a nonnegative row length: clears the two low bits, i.e. rounds
down to a multiple of 4. -/
def align4 (x : Nat) : Nat := x / 4 * 4

/-- Unpacks `count` pixels from packed row bytes `b` starting at position
(`byteIdx`, `bit`), as the loop of reader.go:243-252:
`p[x] = (b[byte] >> bit) & (1<<d.bpp - 1)`. -/
def unpackRow (bpp : Nat) (b : List Nat) : Nat → Nat → Nat → List Nat
  | 0, _, _ => []
  | count + 1, byteIdx, bit =>
    (((b.getD byteIdx 0) >>> bit) &&& (1 <<< bpp - 1)) ::
      (if bit = 0 then unpackRow bpp b count (byteIdx + 1) (8 - bpp)
       else unpackRow bpp b count byteIdx (bit - bpp))

/-- `(*decoder).decodeSmallPaletted` (reader.go:226-255). -/
def decodeSmallPaletted (d : Dec) (s : List Nat) : Except DErr (Img × List Nat) :=
  if d.width = 0 ∨ d.height = 0 then
    .ok (.paletted d.width d.height (d.palette.getD []) [], s)
  else
    let ppb := 8 / d.bpp
    let rowSize := align4 ((d.width + ppb - 1) / ppb + 3)
    match readRows (fun s => ReadFull s rowSize) d.height s with
    | .error e => .error e
    | .ok (rows, s1) =>
      let pixRows := rows.map (fun b => unpackRow d.bpp b d.width 0 (8 - d.bpp))
      .ok (.paletted d.width d.height (d.palette.getD [])
        (if d.topDown then pixRows else pixRows.reverse).flatten, s1)

/-- One row of `(*decoder).decodePaletted` (reader.go:269-280): `width` pixel
bytes, then the row's padding up to a 4-byte boundary is read and discarded. -/
def palettedRow (w : Nat) (s : List Nat) : Except DErr (List Nat × List Nat) :=
  match ReadFull s w with
  | .error e => .error e
  | .ok (p, s1) =>
    if w % 4 ≠ 0 then
      match ReadFull s1 (4 - w % 4) with
      | .error e => .error e
      | .ok (_, s2) => .ok (p, s2)
    else .ok (p, s1)

/-- `(*decoder).decodePaletted` (reader.go:259-283). -/
def decodePaletted (d : Dec) (s : List Nat) : Except DErr (Img × List Nat) :=
  if d.width = 0 ∨ d.height = 0 then
    .ok (.paletted d.width d.height (d.palette.getD []) [], s)
  else
    match readRows (palettedRow d.width) d.height s with
    | .error e => .error e
    | .ok (rows, s1) =>
      .ok (.paletted d.width d.height (d.palette.getD [])
        (if d.topDown then rows else rows.reverse).flatten, s1)

/-- One decoded row of `(*decoder).decodeRGB` (reader.go:441-447): 3 bytes per
pixel stored BGR, reordered to RGBA with alpha `0xFF`. -/
def rgbRowPixels (b : List Nat) (w : Nat) : List Nat :=
  ((List.range w).map (fun x =>
    [b.getD (3 * x + 2) 0, b.getD (3 * x + 1) 0, b.getD (3 * x) 0, 0xFF])).flatten

/-- `(*decoder).decodeRGB` (reader.go:425-450). -/
def decodeRGB (d : Dec) (s : List Nat) : Except DErr (Img × List Nat) :=
  if d.width = 0 ∨ d.height = 0 then .ok (.rgba d.width d.height [], s)
  else
    let rowSize := align4 (3 * d.width + 3)
    match readRows (fun s => ReadFull s rowSize) d.height s with
    | .error e => .error e
    | .ok (rows, s1) =>
      let pixRows := rows.map (fun b => rgbRowPixels b d.width)
      .ok (.rgba d.width d.height (if d.topDown then pixRows else pixRows.reverse).flatten, s1)

/-- One decoded row of `(*decoder).decodeNRGBA` (reader.go:469-475): 4 bytes
per pixel stored BGRA, B and R swapped in place; alpha forced to `0xFF` when
`noAlpha` is set. -/
def nrgbaRowPixels (noAlpha : Bool) (b : List Nat) (w : Nat) : List Nat :=
  ((List.range w).map (fun x =>
    [b.getD (4 * x + 2) 0, b.getD (4 * x + 1) 0, b.getD (4 * x) 0,
     if noAlpha then 0xFF else b.getD (4 * x + 3) 0])).flatten

/-- `(*decoder).decodeNRGBA` (reader.go:455-478).  Each row read is exactly the
image's stride, `4*width` bytes; there is no extra padding. -/
def decodeNRGBA (d : Dec) (s : List Nat) : Except DErr (Img × List Nat) :=
  if d.width = 0 ∨ d.height = 0 then .ok (.nrgba d.width d.height [], s)
  else
    match readRows (fun s => ReadFull s (4 * d.width)) d.height s with
    | .error e => .error e
    | .ok (rows, s1) =>
      let pixRows := rows.map (fun b => nrgbaRowPixels d.noAlpha b d.width)
      .ok (.nrgba d.width d.height (if d.topDown then pixRows else pixRows.reverse).flatten, s1)

/-- One decoded row of `(*decoder).decodeRGB5x5` (reader.go:407-418): 2 bytes
little-endian per pixel; 5-bit (6-bit green for RGB565) fields shifted to the
top of each 8-bit channel; alpha forced opaque.  `uint8(..)` conversions are
`% 256`, and byte shifts wrap `% 256`. -/
def rgb5x5RowPixels (rgb565 : Bool) (b : List Nat) (w : Nat) : List Nat :=
  ((List.range w).map (fun x =>
    let pixel := readUint16 (b.drop (2 * x))
    [if rgb565 then (((pixel &&& 0xF800) >>> 11) % 256 <<< 3) % 256
     else (((pixel &&& 0x7C00) >>> 10) % 256 <<< 3) % 256,
     if rgb565 then (((pixel &&& 0x7E0) >>> 5) % 256 <<< 2) % 256
     else (((pixel &&& 0x3E0) >>> 5) % 256 <<< 3) % 256,
     ((pixel &&& 0x1F) % 256 <<< 3) % 256,
     0xFF])).flatten

/-- `(*decoder).decodeRGB5x5` (reader.go:391-421). -/
def decodeRGB5x5 (d : Dec) (s : List Nat) : Except DErr (Img × List Nat) :=
  if d.width = 0 ∨ d.height = 0 then .ok (.rgba d.width d.height [], s)
  else
    let rowSize := align4 (2 * d.width + 3)
    match readRows (fun s => ReadFull s rowSize) d.height s with
    | .error e => .error e
    | .ok (rows, s1) =>
      let pixRows := rows.map (fun b => rgb5x5RowPixels d.rgb565 b d.width)
      .ok (.rgba d.width d.height (if d.topDown then pixRows else pixRows.reverse).flatten, s1)

/-! ## RLE decompressor (reader.go:286-386) -/

/-- The RLE cursor validity check of reader.go:299:
`x >= 0 && x < paletted.Stride && y >= 0 && y < d.c.Height`. -/
def rleValid (stride height : Nat) (x y : Int) : Bool :=
  decide (0 ≤ x ∧ x < stride ∧ 0 ≤ y ∧ y < height)

/-- A write `paletted.Pix[i] = v`: out-of-range is a Go panic.  The RLE decoder
only issues writes after `rleValid`, which this development proves keeps every
write in bounds. -/
def pixSet (pix : List Nat) (i v : Nat) : Except DErr (List Nat) :=
  if i < pix.length then .ok (pix.set i v) else .error .goPanic

/-- The absolute-mode inner loop of reader.go:337-361.  `ab` is the run buffer
read from the stream; per Go, `i` is the pixel counter, `j` the buffer index
for 4-bpp nibble pairs.  Returns the advanced cursor column and pixel buffer. -/
def rleAbsLoop (bpp stride height : Nat) (ab : List Nat) (b2 : Nat) (i j : Nat)
    (x y : Int) (pix : List Nat) : Except DErr (Int × List Nat) :=
  if _h : i < b2 then
    let c := if bpp = 8 then ab.getD i 0 else ((ab.getD j 0) >>> 4) &&& 0xF
    if rleValid stride height x y then
      match pixSet pix (y * stride + x).toNat c with
      | .error e => .error e
      | .ok pix1 =>
        let x1 := x + 1
        if bpp = 4 then
          let i1 := i + 1
          if _h2 : i1 < b2 then
            if rleValid stride height x1 y then
              match pixSet pix1 (y * stride + x1).toNat ((ab.getD j 0) &&& 0xF) with
              | .error e => .error e
              | .ok pix2 =>
                rleAbsLoop bpp stride height ab b2 (i1 + 1)
                  (if i1 % 2 ≠ 0 then j + 1 else j) (x1 + 1) y pix2
            else .error (.format "invalid RLE data")
          else
            rleAbsLoop bpp stride height ab b2 (i1 + 1)
              (if i1 % 2 ≠ 0 then j + 1 else j) x1 y pix1
        else rleAbsLoop bpp stride height ab b2 (i + 1) j x1 y pix1
    else .error (.format "invalid RLE data")
  else .ok (x, pix)
termination_by b2 - i

/-- The encoded-mode loop of reader.go:366-382: write `b1` pixels of the run
value `b2` (4-bpp: alternating high/low nibble), bounds-checked per pixel. -/
def rleEncLoop (bpp stride height : Nat) (b1 b2 : Nat) (i : Nat) (x y : Int)
    (pix : List Nat) : Except DErr (Int × List Nat) :=
  if _h : i < b1 then
    if rleValid stride height x y then
      let c := if bpp = 8 then b2
        else if i % 2 = 0 then (b2 >>> 4) &&& 0xF else b2 &&& 0xF
      match pixSet pix (y * stride + x).toNat c with
      | .error e => .error e
      | .ok pix1 => rleEncLoop bpp stride height b1 b2 (i + 1) (x + 1) y pix1
    else .error (.format "invalid RLE data")
  else .ok (x, pix)
termination_by b1 - i

theorem ReadFull_ok (s : List Nat) (n : Nat) (c s1 : List Nat)
    (h : ReadFull s n = .ok (c, s1)) : n ≤ s.length ∧ c = s.take n ∧ s1 = s.drop n := by
  unfold ReadFull at h
  by_cases hn : n ≤ s.length
  · simp only [hn, if_pos] at h
    exact ⟨hn, by simpa using (congrArg Prod.fst (Except.ok.inj h)).symm,
      by simpa using (congrArg Prod.snd (Except.ok.inj h)).symm⟩
  · simp only [hn, if_neg, if_false] at h
    by_cases h0 : s.length = 0 <;> simp [h0] at h

/-- The opcode-scanning loop of `(*decoder).decodeRLE` (reader.go:300-384).
Each iteration reads a two-byte `(control, argument)` pair; the recursion
terminates because every iteration consumes at least those two stream bytes. -/
def decodeRLELoop (bpp stride height : Nat) (x y : Int) (pix : List Nat)
    (s : List Nat) : Except DErr (List Nat × List Nat) :=
  match h1 : ReadFull s 2 with
  | .error e => .error e
  | .ok (hd, s1) =>
    let b1 := hd.getD 0 0
    let b2 := hd.getD 1 0
    if b1 = 0 then
      if b2 = 0 then
        -- EOL.
        if rleValid stride height 0 (y - 1) then
          decodeRLELoop bpp stride height 0 (y - 1) pix s1
        else .error (.format "invalid RLE data")
      else if b2 = 1 then .ok (pix, s1)  -- EOF opcode.
      else if b2 = 2 then
        -- Delta.
        match h2 : ReadFull s1 2 with
        | .error e => .error e
        | .ok (d2, s2) =>
          let x1 := x + d2.getD 0 0
          let y1 := y - d2.getD 1 0
          if rleValid stride height x1 y1 then
            decodeRLELoop bpp stride height x1 y1 pix s2
          else .error (.format "invalid RLE data")
      else
        -- Absolute mode: reader.go:330-336 computes the packed byte count in
        -- uint16 arithmetic, then pads it to even.
        let n0 := (b2 * bpp + 8 - 1) / 8
        let n := if (bpp = 8 ∧ b2 % 2 ≠ 0) ∨ (bpp = 4 ∧ (b2 % 4 = 1 ∨ b2 % 4 = 2))
          then n0 + 1 else n0
        match h2 : ReadFull s1 n with
        | .error e => .error e
        | .ok (ab, s2) =>
          match rleAbsLoop bpp stride height ab b2 0 0 x y pix with
          | .error e => .error e
          | .ok (x1, pix1) => decodeRLELoop bpp stride height x1 y pix1 s2
    else
      -- Encoded mode.
      match rleEncLoop bpp stride height b1 b2 0 x y pix with
      | .error e => .error e
      | .ok (x1, pix1) => decodeRLELoop bpp stride height x1 y pix1 s1
termination_by s.length
decreasing_by
  · obtain ⟨hle, -, hs1⟩ := ReadFull_ok s 2 hd s1 h1
    subst hs1; simp; omega
  · obtain ⟨hle, -, hs1⟩ := ReadFull_ok s 2 hd s1 h1
    obtain ⟨-, -, hs2⟩ := ReadFull_ok s1 2 d2 s2 h2
    subst hs2; subst hs1; simp; omega
  · obtain ⟨hle, -, hs1⟩ := ReadFull_ok s 2 hd s1 h1
    obtain ⟨-, -, hs2⟩ := ReadFull_ok s1 n ab s2 h2
    subst hs2; subst hs1; simp; omega
  · obtain ⟨hle, -, hs1⟩ := ReadFull_ok s 2 hd s1 h1
    subst hs1; simp; omega

/-- `(*decoder).decodeRLE` (reader.go:286-386).  The pixel buffer starts as the
zeroed `image.NewPaletted` buffer of `stride*height` bytes with
`stride = width`; the cursor starts at `(0, height-1)`. -/
def decodeRLE (d : Dec) (s : List Nat) : Except DErr (Img × List Nat) :=
  if d.width = 0 ∨ d.height = 0 then
    .ok (.paletted d.width d.height (d.palette.getD []) [], s)
  else
    match decodeRLELoop d.bpp d.width d.height 0 ((d.height : Int) - 1)
        (List.replicate (d.width * d.height) 0) s with
    | .error e => .error e
    | .ok (pix, s1) => .ok (.paletted d.width d.height (d.palette.getD []) pix, s1)

/-- `(*decoder).Decode` (reader.go:205-222). -/
def decodeImage (d : Dec) (s : List Nat) : Except DErr (Img × List Nat) :=
  if d.rle then decodeRLE d s
  else if d.bpp = 1 ∨ d.bpp = 2 ∨ d.bpp = 4 then decodeSmallPaletted d s
  else if d.bpp = 8 then decodePaletted d s
  else if d.bpp = 16 then decodeRGB5x5 d s
  else if d.bpp = 24 then decodeRGB d s
  else if d.bpp = 32 then decodeNRGBA d s
  else .error .goPanic  -- Go: panic("unreachable"); DecodeConfig rules this out.

/-- Top-level `Decode` (reader.go:481-487). -/
def Decode (s : List Nat) : Except DErr Img :=
  match decodeConfig s with
  | .error e => .error e
  | .ok (d, s1) =>
    match decodeImage d s1 with
    | .error e => .error e
    | .ok (img, _) => .ok img

/-! ## Encoder (writer.go)

Source images mirror the concrete Go image types `Encode` switches on.
Each has `pix` in row-major top-to-bottom order with the given `stride`
(bytes per in-memory row). -/

/-- `*image.Gray`: one byte per pixel. -/
structure GrayImg where
  width : Nat
  height : Nat
  stride : Nat
  pix : List Nat
deriving DecidableEq, Repr

/-- `*image.Paletted`: one palette index byte per pixel. -/
structure PalImg where
  width : Nat
  height : Nat
  stride : Nat
  palette : List RGBAc
  pix : List Nat
deriving DecidableEq, Repr

/-- `*image.RGBA` (alpha-premultiplied) — 4 bytes per pixel, R,G,B,A. -/
structure RGBAImg where
  width : Nat
  height : Nat
  stride : Nat
  pix : List Nat
deriving DecidableEq, Repr

/-- `*image.NRGBA` (straight alpha) — 4 bytes per pixel, R,G,B,A. -/
structure NRGBAImg where
  width : Nat
  height : Nat
  stride : Nat
  pix : List Nat
deriving DecidableEq, Repr

/-- The `image.Image` argument of `Encode`: the four specially-handled
concrete types, or any other image, reached only through its generic
`At(x,y).RGBA()` query returning 16-bit premultiplied channels. -/
inductive SrcImg where
  | gray (m : GrayImg)
  | paletted (m : PalImg)
  | rgba (m : RGBAImg)
  | nrgba (m : NRGBAImg)
  | generic (width height : Nat) (at16 : Nat → Nat → Nat × Nat × Nat × Nat)

/-- `(*image.RGBA).Opaque` / `(*image.NRGBA).Opaque`: every alpha byte
(offset 3 of each 4-byte pixel inside the bounds) equals `0xFF`. -/
def pixFullAlpha (pix : List Nat) (width height stride : Nat) : Bool :=
  decide (∀ y < height, ∀ x < width, pix.getD (y * stride + 4 * x + 3) 0 = 0xFF)

/-- `color.RGBA.RGBA()`: `r = uint32(c.R); r |= r << 8`, etc.; alpha likewise. -/
def rgba16 (c : RGBAc) : Nat × Nat × Nat × Nat :=
  (c.r ||| c.r <<< 8, c.g ||| c.g <<< 8, c.b ||| c.b <<< 8, c.a ||| c.a <<< 8)

/-- The BMP file-plus-DIB header struct synthesized by `Encode`
(writer.go:195-219).  `sigBM` and the fields Go leaves at their zero value
(`reserved`, the two resolution fields, `colorImportant`) are fixed at
serialization.  All `uint32`/`uint16` fields wrap at serialization time. -/
structure Header where
  fileSize : Nat
  pixOffset : Nat
  dibHeaderSize : Nat
  width : Nat
  height : Nat
  colorPlane : Nat
  bpp : Nat
  compression : Nat
  imageSize : Nat
  colorUse : Nat
deriving DecidableEq, Repr

/-- `binary.Write(w, binary.LittleEndian, h)` of the header struct: 54 bytes. -/
def hdrBytes (h : Header) : List Nat :=
  [66, 77] ++ u32le h.fileSize ++ u16le 0 ++ u16le 0 ++ u32le h.pixOffset ++
    u32le h.dibHeaderSize ++ u32le h.width ++ u32le h.height ++ u16le h.colorPlane ++
    u16le h.bpp ++ u32le h.compression ++ u32le h.imageSize ++ u32le 0 ++ u32le 0 ++
    u32le h.colorUse ++ u32le 0

/-- `encodeSmallPaletted`'s inner packing loop (writer.go:43-52), updating the
row buffer `b` in place:
`b[byte] = (b[byte] &^ ((1<<bpp - 1) << bit)) | (pix[y*stride+x] << bit)`,
all in byte (mod-256) arithmetic; `&^ m` is `&` with the byte complement. -/
def packRowPixels (bpp : Nat) (rowpix : List Nat) (b : List Nat) (byteIdx bit : Nat) :
    List Nat :=
  match rowpix with
  | [] => b
  | v :: rest =>
    let b1 := b.set byteIdx
      (((b.getD byteIdx 0) &&& (255 ^^^ (((1 <<< bpp - 1) <<< bit) % 256))) |||
        ((v <<< bit) % 256))
    if bit = 0 then packRowPixels bpp rest b1 (byteIdx + 1) (8 - bpp)
    else packRowPixels bpp rest b1 byteIdx (bit - bpp)

/-- `encodeSmallPaletted`'s row loop (writer.go:40-58): `y` from `dy-1` down to
0, reusing one row buffer across rows (stale bits in padding survive). -/
def encodeSmallPalettedRows (pix : List Nat) (bpp dx stride : Nat) (b : List Nat) :
    Nat → List Nat
  | 0 => []
  | y + 1 =>
    let b1 := packRowPixels bpp ((pix.drop (y * stride)).take dx) b 0 (8 - bpp)
    b1 ++ encodeSmallPalettedRows pix bpp dx stride b1 y

/-- `encodeSmallPaletted` (writer.go:40-58): `b := make([]byte, step)`. -/
def encodeSmallPaletted (pix : List Nat) (bpp dx dy stride step : Nat) : List Nat :=
  encodeSmallPalettedRows pix bpp dx stride (List.replicate step 0) dy

/-- `encodePaletted`'s row loop (writer.go:65-76): writes `pix[y*stride : y*stride+dx]`
then the shared zero `padding`, `y` from `dy-1` down to 0. -/
def encodePalettedRows (pix : List Nat) (dx stride : Nat) (padding : List Nat) :
    Nat → List Nat
  | 0 => []
  | y + 1 =>
    ((pix.drop (y * stride)).take dx ++ padding) ++
      encodePalettedRows pix dx stride padding y

/-- `encodePaletted` (writer.go:60-78): `padding` is allocated (zeroed) only
when `dx < step`. -/
def encodePaletted (pix : List Nat) (dx dy stride step : Nat) : List Nat :=
  encodePalettedRows pix dx stride
    (if dx < step then List.replicate (step - dx) 0 else []) dy

/-- One opaque output row body of `encodeRGBA`/`encodeNRGBA`
(writer.go:83-96, 136-149): `dx` BGR triples from the row at offset `min`. -/
def bgrRowBody (pix : List Nat) (min dx : Nat) : List Nat :=
  ((List.range dx).map (fun x =>
    [pix.getD (min + 4 * x + 2) 0, pix.getD (min + 4 * x + 1) 0,
     pix.getD (min + 4 * x) 0])).flatten

/-- The per-pixel body of `encodeRGBA`'s non-opaque path (writer.go:102-124):
premultiplied RGBA to straight-alpha BGRA.  `uint8(..)` truncation is `% 256`. -/
def rgbaAlphaPixel (r g b a : Nat) : List Nat :=
  if a = 0 then [0, 0, 0, 0]
  else if a = 0xFF then [b, g, r, 0xFF]
  else
    [(((b * 0xFFFF) / a) >>> 8) % 256, (((g * 0xFFFF) / a) >>> 8) % 256,
     (((r * 0xFFFF) / a) >>> 8) % 256, a % 256]

/-- The per-pixel body of `encodeNRGBA`'s non-opaque path (writer.go:151-165):
straight-alpha RGBA packed as BGRA unchanged. -/
def nrgbaAlphaPixel (r g b a : Nat) : List Nat := [b, g, r, a]

/-- `encodeRGBA`/`encodeNRGBA` row loop: `buf` (length `step`) is reused across
rows; a row overwrites its first `3*dx` (opaque) or `4*dx` bytes and emits the
whole buffer. `alphaPixel` is the respective non-opaque per-pixel conversion. -/
def encodeTruecolorRows (alphaPixel : Nat → Nat → Nat → Nat → List Nat)
    (pix : List Nat) (dx stride : Nat) (opq : Bool) (buf : List Nat) : Nat → List Nat
  | 0 => []
  | y + 1 =>
    let min := y * stride
    let b1 :=
      if opq then bgrRowBody pix min dx ++ buf.drop (3 * dx)
      else
        (((List.range dx).map (fun x =>
          alphaPixel (pix.getD (min + 4 * x) 0) (pix.getD (min + 4 * x + 1) 0)
            (pix.getD (min + 4 * x + 2) 0) (pix.getD (min + 4 * x + 3) 0))).flatten) ++
          buf.drop (4 * dx)
    b1 ++ encodeTruecolorRows alphaPixel pix dx stride opq b1 y

/-- `encodeRGBA` (writer.go:80-131). -/
def encodeRGBA (pix : List Nat) (dx dy stride step : Nat) (opq : Bool) : List Nat :=
  encodeTruecolorRows rgbaAlphaPixel pix dx stride opq (List.replicate step 0) dy

/-- `encodeNRGBA` (writer.go:133-168). -/
def encodeNRGBA (pix : List Nat) (dx dy stride step : Nat) (opq : Bool) : List Nat :=
  encodeTruecolorRows nrgbaAlphaPixel pix dx stride opq (List.replicate step 0) dy

/-- The generic fallback `encode` (writer.go:170-187): per pixel
`r, g, b, _ := m.At(x, y).RGBA()` and bytes `b>>8, g>>8, r>>8`. -/
def encodeGenericRows (at16 : Nat → Nat → Nat × Nat × Nat × Nat) (dx : Nat)
    (buf : List Nat) : Nat → List Nat
  | 0 => []
  | y + 1 =>
    let b1 := (((List.range dx).map (fun x =>
      let (r, g, b, _) := at16 x y
      [(b >>> 8) % 256, (g >>> 8) % 256, (r >>> 8) % 256])).flatten) ++
        buf.drop (3 * dx)
    b1 ++ encodeGenericRows at16 dx b1 y

/-- The gray 256-entry palette built by `Encode` for `*image.Gray`
(writer.go:226-232): entry `i` is `(i, i, i, 0xFF)` stored B,G,R,X. -/
def grayPaletteBytes : List Nat :=
  ((List.range 256).map (fun i => [i, i, i, 0xFF])).flatten

/-- Everything `Encode` (writer.go:190-300) computes before writing: the
synthesized header, the palette bytes (empty for the truecolor paths), the
on-disk row size `step`, and the `Opaque()` result for the truecolor paths. -/
structure EncPrep where
  h : Header
  palette : List Nat
  step : Nat
  opq : Bool
deriving DecidableEq, Repr

/-- The format-selection switch of `Encode` (writer.go:220-300). -/
def encodePrepare (m : SrcImg) : Except DErr EncPrep :=
  match m with
  | .gray g =>
    let step := align4 (g.width + 3)
    let imageSize := g.height * step % 2 ^ 32
    .ok { h := { fileSize := (fileHeaderLen + infoHeaderLen + 1024 + imageSize) % 2 ^ 32,
                 pixOffset := fileHeaderLen + infoHeaderLen + 1024,
                 dibHeaderSize := infoHeaderLen, width := g.width, height := g.height,
                 colorPlane := 1, bpp := 8, compression := 0,
                 imageSize := imageSize, colorUse := 0 },
          palette := grayPaletteBytes, step := step, opq := false }
  | .paletted p =>
    let len := p.palette.length
    if len = 0 ∨ len > 256 then .error (.format ("bad palette length: " ++ toString len))
    else
      let bpp := if len ≤ 2 then 1 else if len ≤ 4 then 2 else if len ≤ 16 then 4 else 8
      let colors := if len < 1 <<< bpp then len else 1 <<< bpp
      let colorUse := if len < 1 <<< bpp then len else 0
      let step := if bpp < 8 then align4 ((p.width + 8 / bpp - 1) / (8 / bpp) + 3)
        else align4 (p.width + 3)
      let palette := ((List.range colors).map (fun i =>
        let c := rgba16 (p.palette.getD i ⟨0, 0, 0, 0⟩)
        [(c.2.2.1 >>> 8) % 256, (c.2.1 >>> 8) % 256, (c.1 >>> 8) % 256, 0xFF])).flatten
      let imageSize := p.height * step % 2 ^ 32
      .ok { h := { fileSize := (fileHeaderLen + infoHeaderLen + colors * 4 + imageSize) % 2 ^ 32,
                   pixOffset := fileHeaderLen + infoHeaderLen + colors * 4,
                   dibHeaderSize := infoHeaderLen, width := p.width, height := p.height,
                   colorPlane := 1, bpp := bpp, compression := 0,
                   imageSize := imageSize, colorUse := colorUse },
            palette := palette, step := step, opq := false }
  | .rgba r =>
    let opq := pixFullAlpha r.pix r.width r.height r.stride
    let step := if opq then align4 (3 * r.width + 3) else 4 * r.width
    let bpp := if opq then 24 else 32
    let imageSize := r.height * step % 2 ^ 32
    .ok { h := { fileSize := (fileHeaderLen + infoHeaderLen + imageSize) % 2 ^ 32,
                 pixOffset := fileHeaderLen + infoHeaderLen,
                 dibHeaderSize := infoHeaderLen, width := r.width, height := r.height,
                 colorPlane := 1, bpp := bpp, compression := 0,
                 imageSize := imageSize, colorUse := 0 },
          palette := [], step := step, opq := opq }
  | .nrgba r =>
    let opq := pixFullAlpha r.pix r.width r.height r.stride
    let step := if opq then align4 (3 * r.width + 3) else 4 * r.width
    let bpp := if opq then 24 else 32
    let imageSize := r.height * step % 2 ^ 32
    .ok { h := { fileSize := (fileHeaderLen + infoHeaderLen + imageSize) % 2 ^ 32,
                 pixOffset := fileHeaderLen + infoHeaderLen,
                 dibHeaderSize := infoHeaderLen, width := r.width, height := r.height,
                 colorPlane := 1, bpp := bpp, compression := 0,
                 imageSize := imageSize, colorUse := 0 },
          palette := [], step := step, opq := opq }
  | .generic w h _ =>
    let step := align4 (3 * w + 3)
    let imageSize := h * step % 2 ^ 32
    .ok { h := { fileSize := (fileHeaderLen + infoHeaderLen + imageSize) % 2 ^ 32,
                 pixOffset := fileHeaderLen + infoHeaderLen,
                 dibHeaderSize := infoHeaderLen, width := w, height := h,
                 colorPlane := 1, bpp := 24, compression := 0,
                 imageSize := imageSize, colorUse := 0 },
          palette := [], step := step, opq := false }

def srcWidth : SrcImg → Nat
  | .gray g => g.width
  | .paletted p => p.width
  | .rgba r => r.width
  | .nrgba r => r.width
  | .generic w _ _ => w

def srcHeight : SrcImg → Nat
  | .gray g => g.height
  | .paletted p => p.height
  | .rgba r => r.height
  | .nrgba r => r.height
  | .generic _ h _ => h

/-- The pixel-row writes of `Encode` (writer.go:312-325). -/
def encodeRows (m : SrcImg) (p : EncPrep) : List Nat :=
  match m with
  | .gray g => encodePaletted g.pix g.width g.height g.stride p.step
  | .paletted pm =>
    if p.h.bpp < 8 then
      encodeSmallPaletted pm.pix p.h.bpp pm.width pm.height pm.stride p.step
    else encodePaletted pm.pix pm.width pm.height pm.stride p.step
  | .rgba r => encodeRGBA r.pix r.width r.height r.stride p.step p.opq
  | .nrgba r => encodeNRGBA r.pix r.width r.height r.stride p.step p.opq
  | .generic _ h at16 => encodeGenericRows at16 (srcWidth m) (List.replicate p.step 0) h

/-- `Encode` (writer.go:190-326), collecting all bytes written to `w`.  The
`d.X < 0 || d.Y < 0` check cannot fire: canonical bounds sizes are `Nat` here.
After the header (and palette, when one was built) it returns early for images
with zero width or height (writer.go:309-311). -/
def Encode (m : SrcImg) : Except DErr (List Nat) :=
  match encodePrepare m with
  | .error e => .error e
  | .ok p =>
    if srcWidth m = 0 ∨ srcHeight m = 0 then .ok (hdrBytes p.h ++ p.palette)
    else .ok (hdrBytes p.h ++ p.palette ++ encodeRows m p)

/-! ## Reading back serialized headers -/

theorem or4_bytes' (n : Nat) :
    n % 256 ||| (n / 256 % 256) <<< 8 ||| (n / 65536 % 256) <<< 16 |||
      (n / 16777216 % 256) <<< 24 = n % 4294967296 := by
  have h := or4_bytes n
  norm_num at h ⊢
  exact h

theorem or2_bytes' (n : Nat) : n % 256 ||| (n / 256 % 256) <<< 8 = n % 65536 := by
  have h := or2_bytes n
  norm_num at h ⊢
  exact h

theorem hdrBytes_length (h : Header) : (hdrBytes h).length = 54 := by
  simp [hdrBytes, u32le, u16le]

theorem getD_append_left (l r : List Nat) (k : Nat) (hk : k < l.length) :
    (l ++ r).getD k 0 = l.getD k 0 := by
  simp [List.getD_eq_getElem?_getD, List.getElem?_append_left hk]

theorem getD_take (l : List Nat) (n k : Nat) (hk : k < n) :
    (l.take n).getD k 0 = l.getD k 0 := by
  induction n generalizing l k with
  | zero => omega
  | succ m ih =>
    cases l with
    | nil => simp
    | cons a t =>
      cases k with
      | zero => simp
      | succ j => simpa using ih t j (by omega)

theorem hdr_getD (h : Header) (r : List Nat) (k : Nat) (hk : k < 54) :
    (hdrBytes h ++ r).getD k 0 = (hdrBytes h).getD k 0 :=
  getD_append_left _ r k (by rw [hdrBytes_length]; omega)

theorem hdr_sig0 (h : Header) (r : List Nat) : (hdrBytes h ++ r).getD 0 0 = 66 := by
  rw [hdr_getD h r 0 (by omega)]; simp [hdrBytes]

theorem hdr_sig1 (h : Header) (r : List Nat) : (hdrBytes h ++ r).getD 1 0 = 77 := by
  rw [hdr_getD h r 1 (by omega)]; simp [hdrBytes]

theorem hdr_read_pixOffset (h : Header) (r : List Nat) :
    readUint32 ((hdrBytes h ++ r).drop 10) = h.pixOffset % 4294967296 := by
  rw [readUint32_drop]
  rw [hdr_getD h r 10 (by omega), hdr_getD h r (10+1) (by omega),
    hdr_getD h r (10+2) (by omega), hdr_getD h r (10+3) (by omega)]
  have e0 : (hdrBytes h).getD 10 0 = h.pixOffset % 256 := by simp [hdrBytes, u32le, u16le]
  have e1 : (hdrBytes h).getD (10+1) 0 = h.pixOffset / 256 % 256 := by
    simp [hdrBytes, u32le, u16le]
  have e2 : (hdrBytes h).getD (10+2) 0 = h.pixOffset / 65536 % 256 := by
    simp [hdrBytes, u32le, u16le]
  have e3 : (hdrBytes h).getD (10+3) 0 = h.pixOffset / 16777216 % 256 := by
    simp [hdrBytes, u32le, u16le]
  rw [e0, e1, e2, e3]
  exact or4_bytes' _

theorem hdr_read_dib (h : Header) (r : List Nat) :
    readUint32 ((hdrBytes h ++ r).drop 14) = h.dibHeaderSize % 4294967296 := by
  rw [readUint32_drop]
  rw [hdr_getD h r 14 (by omega), hdr_getD h r (14+1) (by omega),
    hdr_getD h r (14+2) (by omega), hdr_getD h r (14+3) (by omega)]
  have e0 : (hdrBytes h).getD 14 0 = h.dibHeaderSize % 256 := by simp [hdrBytes, u32le, u16le]
  have e1 : (hdrBytes h).getD (14+1) 0 = h.dibHeaderSize / 256 % 256 := by
    simp [hdrBytes, u32le, u16le]
  have e2 : (hdrBytes h).getD (14+2) 0 = h.dibHeaderSize / 65536 % 256 := by
    simp [hdrBytes, u32le, u16le]
  have e3 : (hdrBytes h).getD (14+3) 0 = h.dibHeaderSize / 16777216 % 256 := by
    simp [hdrBytes, u32le, u16le]
  rw [e0, e1, e2, e3]
  exact or4_bytes' _

theorem hdr_read_width (h : Header) (r : List Nat) :
    readUint32 ((hdrBytes h ++ r).drop 18) = h.width % 4294967296 := by
  rw [readUint32_drop]
  rw [hdr_getD h r 18 (by omega), hdr_getD h r (18+1) (by omega),
    hdr_getD h r (18+2) (by omega), hdr_getD h r (18+3) (by omega)]
  have e0 : (hdrBytes h).getD 18 0 = h.width % 256 := by simp [hdrBytes, u32le, u16le]
  have e1 : (hdrBytes h).getD (18+1) 0 = h.width / 256 % 256 := by
    simp [hdrBytes, u32le, u16le]
  have e2 : (hdrBytes h).getD (18+2) 0 = h.width / 65536 % 256 := by
    simp [hdrBytes, u32le, u16le]
  have e3 : (hdrBytes h).getD (18+3) 0 = h.width / 16777216 % 256 := by
    simp [hdrBytes, u32le, u16le]
  rw [e0, e1, e2, e3]
  exact or4_bytes' _

theorem hdr_read_height (h : Header) (r : List Nat) :
    readUint32 ((hdrBytes h ++ r).drop 22) = h.height % 4294967296 := by
  rw [readUint32_drop]
  rw [hdr_getD h r 22 (by omega), hdr_getD h r (22+1) (by omega),
    hdr_getD h r (22+2) (by omega), hdr_getD h r (22+3) (by omega)]
  have e0 : (hdrBytes h).getD 22 0 = h.height % 256 := by simp [hdrBytes, u32le, u16le]
  have e1 : (hdrBytes h).getD (22+1) 0 = h.height / 256 % 256 := by
    simp [hdrBytes, u32le, u16le]
  have e2 : (hdrBytes h).getD (22+2) 0 = h.height / 65536 % 256 := by
    simp [hdrBytes, u32le, u16le]
  have e3 : (hdrBytes h).getD (22+3) 0 = h.height / 16777216 % 256 := by
    simp [hdrBytes, u32le, u16le]
  rw [e0, e1, e2, e3]
  exact or4_bytes' _

theorem hdr_read_planes (h : Header) (r : List Nat) :
    readUint16 ((hdrBytes h ++ r).drop 26) = h.colorPlane % 65536 := by
  rw [readUint16_drop]
  rw [hdr_getD h r 26 (by omega), hdr_getD h r (26+1) (by omega)]
  have e0 : (hdrBytes h).getD 26 0 = h.colorPlane % 256 := by simp [hdrBytes, u32le, u16le]
  have e1 : (hdrBytes h).getD (26+1) 0 = h.colorPlane / 256 % 256 := by
    simp [hdrBytes, u32le, u16le]
  rw [e0, e1]
  exact or2_bytes' _

theorem hdr_read_bpp (h : Header) (r : List Nat) :
    readUint16 ((hdrBytes h ++ r).drop 28) = h.bpp % 65536 := by
  rw [readUint16_drop]
  rw [hdr_getD h r 28 (by omega), hdr_getD h r (28+1) (by omega)]
  have e0 : (hdrBytes h).getD 28 0 = h.bpp % 256 := by simp [hdrBytes, u32le, u16le]
  have e1 : (hdrBytes h).getD (28+1) 0 = h.bpp / 256 % 256 := by
    simp [hdrBytes, u32le, u16le]
  rw [e0, e1]
  exact or2_bytes' _

theorem hdr_read_compression (h : Header) (r : List Nat) :
    readUint32 ((hdrBytes h ++ r).drop 30) = h.compression % 4294967296 := by
  rw [readUint32_drop]
  rw [hdr_getD h r 30 (by omega), hdr_getD h r (30+1) (by omega),
    hdr_getD h r (30+2) (by omega), hdr_getD h r (30+3) (by omega)]
  have e0 : (hdrBytes h).getD 30 0 = h.compression % 256 := by simp [hdrBytes, u32le, u16le]
  have e1 : (hdrBytes h).getD (30+1) 0 = h.compression / 256 % 256 := by
    simp [hdrBytes, u32le, u16le]
  have e2 : (hdrBytes h).getD (30+2) 0 = h.compression / 65536 % 256 := by
    simp [hdrBytes, u32le, u16le]
  have e3 : (hdrBytes h).getD (30+3) 0 = h.compression / 16777216 % 256 := by
    simp [hdrBytes, u32le, u16le]
  rw [e0, e1, e2, e3]
  exact or4_bytes' _

theorem hdr_read_colorUse (h : Header) (r : List Nat) :
    readUint32 ((hdrBytes h ++ r).drop 46) = h.colorUse % 4294967296 := by
  rw [readUint32_drop]
  rw [hdr_getD h r 46 (by omega), hdr_getD h r (46+1) (by omega),
    hdr_getD h r (46+2) (by omega), hdr_getD h r (46+3) (by omega)]
  have e0 : (hdrBytes h).getD 46 0 = h.colorUse % 256 := by simp [hdrBytes, u32le, u16le]
  have e1 : (hdrBytes h).getD (46+1) 0 = h.colorUse / 256 % 256 := by
    simp [hdrBytes, u32le, u16le]
  have e2 : (hdrBytes h).getD (46+2) 0 = h.colorUse / 65536 % 256 := by
    simp [hdrBytes, u32le, u16le]
  have e3 : (hdrBytes h).getD (46+3) 0 = h.colorUse / 16777216 % 256 := by
    simp [hdrBytes, u32le, u16le]
  rw [e0, e1, e2, e3]
  exact or4_bytes' _

theorem hdr_drop54 (h : Header) (r : List Nat) : (hdrBytes h ++ r).drop 54 = r := by
  have : (54 : Nat) = (hdrBytes h).length := (hdrBytes_length h).symm
  rw [this, List.drop_left]

/-! ## Format registration signature (reader.go:499-501) -/

/-- The magic string registered by `init` (reader.go:500):
`"BM????\x00\x00\x00\x00"` — `'?'` is byte 63, `\x00` is byte 0. -/
def bmpMagic : List Nat := [66, 77, 63, 63, 63, 63, 0, 0, 0, 0]

/-- Modelled from the documented behaviour of `image.RegisterFormat` (Go
standard library, an external collaborator of this repository): a stream
matches a registered magic when its first `len(magic)` bytes agree with the
magic byte-for-byte, except that a `'?'` byte in the magic matches any byte. -/
def magicMatch (magic b : List Nat) : Bool :=
  decide (magic.length = b.length) &&
    (List.range magic.length).all (fun i =>
      decide (magic.getD i 0 = 63) || decide (magic.getD i 0 = b.getD i 0))

/-- C9 (counterexample): a 10-byte stream starting with `BM` whose reserved
field (bytes 7-10, indices 6-9) is nonzero does *not* match the registered
signature, contradicting the claim that every stream starting `BM` matches
regardless of the reserved bytes. -/
theorem c9_counterexample :
    magicMatch bmpMagic [66, 77, 0, 0, 0, 0, 1, 0, 0, 0] = false ∧
    [66, 77, 0, 0, 0, 0, 1, 0, 0, 0].take 2 = [66, 77] := by decide

/-- C9 (amended): the signature `"BM????\x00\x00\x00\x00"` constrains the
first two bytes to `BM` and the four reserved bytes (indices 6-9) to zero,
leaving only bytes 3-6 (indices 2-5, the file-size field) unconstrained: a
10-byte stream matches iff its first two bytes are `BM` and its reserved
bytes are all zero. -/
theorem c9_signature (b : List Nat) (hlen : b.length = 10) :
    magicMatch bmpMagic b = true ↔
      (b.getD 0 0 = 66 ∧ b.getD 1 0 = 77 ∧ b.getD 6 0 = 0 ∧ b.getD 7 0 = 0 ∧
        b.getD 8 0 = 0 ∧ b.getD 9 0 = 0) := by
  match b, hlen with
  | [b0, b1, b2, b3, b4, b5, b6, b7, b8, b9], _ =>
    show magicMatch bmpMagic [b0, b1, b2, b3, b4, b5, b6, b7, b8, b9] = true ↔ _
    rw [magicMatch]
    rw [show List.range (bmpMagic.length) = [0,1,2,3,4,5,6,7,8,9] from by decide]
    simp [bmpMagic, List.all]
    constructor
    · rintro ⟨h0, h1, h6, h7, h8, h9⟩
      exact ⟨h0.symm, h1.symm, h6.symm, h7.symm, h8.symm, h9.symm⟩
    · rintro ⟨h0, h1, h6, h7, h8, h9⟩
      exact ⟨h0.symm, h1.symm, h6.symm, h7.symm, h8.symm, h9.symm⟩

/-- C9 witness: a concrete match with arbitrary nonzero size bytes. -/
theorem c9_signature_witness :
    magicMatch bmpMagic [66, 77, 9, 8, 7, 6, 0, 0, 0, 0] = true :=
  (c9_signature [66, 77, 9, 8, 7, 6, 0, 0, 0, 0] (by decide)).mpr (by decide)

/-! ## C2: palette size vs. the declared color count -/

set_option maxRecDepth 100000 in
/-- C2 (code evaluated at the failing inputs): the decoder bounds the palette
only by its 1024-byte scratch buffer, not by `2^bpp`.  A 1-bpp header declaring
256 colors (offset 14+40+1024) decodes successfully with a 256-entry palette,
though `2^1 = 2`; and a 1-bpp header declaring 300 colors (offset 14+40+1200)
makes `b[:colors*4]` slice the 1024-byte array out of range — a Go panic on
malformed input instead of an error. -/
theorem c2_code_bug :
    ((decodeConfig (hdrBytes ⟨0, 1078, 40, 1, 1, 1, 1, 0, 0, 256⟩ ++
        List.replicate 1024 7)).map
      (fun p => ((p.1.palette.getD []).length, p.1.bpp)) = .ok (256, 1) ∧
      2 ^ 1 < 256) ∧
    decodeConfig (hdrBytes ⟨0, 1254, 40, 1, 1, 1, 1, 0, 0, 300⟩ ++
        List.replicate 1200 0) = .error .goPanic := by
  constructor
  · exact ⟨by decide, by decide⟩
  · decide

/-! ## C3: end-of-stream normalization -/

set_option maxRecDepth 100000 in
/-- C3 (counterexample): a structurally valid 8-bpp header whose stream ends
exactly where the 1024 palette bytes are required.  `io.ReadFull` returns the
generic `io.EOF` here and reader.go:165-167 returns it unnormalized — the
decoder surfaces `eof`, not `unexpectedEOF`, although more bytes were
structurally required. -/
theorem c3_counterexample :
    decodeConfig (hdrBytes ⟨0, 1078, 40, 1, 1, 1, 8, 0, 0, 0⟩) = .error .eof := by
  decide

theorem ReadFullH_short (s : List Nat) (n : Nat) (h : s.length < n) :
    ReadFullH s n = .error .unexpectedEOF := by
  unfold ReadFullH ReadFull
  have hn : ¬ (n ≤ s.length) := by omega
  have hn0 : n ≠ 0 := by omega
  by_cases h0 : s.length = 0 <;> simp [hn, h0, hn0]

theorem decodeConfig_short18 (s : List Nat) (h : s.length < 18) :
    decodeConfig s = .error .unexpectedEOF := by
  have h1 : ReadFullH s (fileHeaderLen + 4) = .error .unexpectedEOF :=
    ReadFullH_short s _ (by simpa [fileHeaderLen] using h)
  simp [decodeConfig, h1]

theorem decodeConfig_midDIB (s : List Nat) (h18 : 18 ≤ s.length)
    (h0 : s.getD 0 0 = 66) (h1 : s.getD 1 0 = 77)
    (il : Nat) (hil : il = readUint32 ((s.take 18).drop 14))
    (hmem : il = 40 ∨ il = 108 ∨ il = 124)
    (hshort : s.length < 14 + il) :
    decodeConfig s = .error .unexpectedEOF := by
  have hr : ReadFullH s (fileHeaderLen + 4) = .ok (s.take 18, s.drop 18) := by
    have h := ReadFullH_prefix' (s.take 18) (s.drop 18) (fileHeaderLen + 4)
      (by simp [List.length_take, fileHeaderLen]; omega)
    rwa [List.take_append_drop] at h
  have hsig : (s.take 18).getD 0 0 = 66 ∧ (s.take 18).getD 1 0 = 77 := by
    rw [getD_take s 18 0 (by omega), getD_take s 18 1 (by omega)]
    exact ⟨h0, h1⟩
  have hr2 : ReadFullH (s.drop 18) (il - 4) = .error .unexpectedEOF :=
    ReadFullH_short _ _ (by simp [List.length_drop]; omega)
  simp only [decodeConfig, hr, hsig, and_self, if_true, ← hil]
  rw [hr2, if_pos hmem]

/-- C3 (amended): end-of-stream is normalized to the explicit
unexpected-end-of-input error during the fixed header reads (any stream
shorter than the 18-byte probe, and any stream that ends inside the DIB
header); elsewhere, a read that got only part of its bytes also reports
unexpected end of input, but a stream that ends *exactly at a structural read
boundary* after the header surfaces the generic end-of-stream signal instead:
the palette read and the per-row pixel reads return it unnormalized (final
conjunct: a 1x2 24-bpp image with only one row present yields `eof`). -/
theorem c3_eof_normalization :
    (∀ s : List Nat, s.length < 18 → decodeConfig s = .error .unexpectedEOF) ∧
    (∀ s : List Nat, 18 ≤ s.length → s.getD 0 0 = 66 → s.getD 1 0 = 77 →
      ∀ il : Nat, il = readUint32 ((s.take 18).drop 14) →
      (il = 40 ∨ il = 108 ∨ il = 124) → s.length < 14 + il →
      decodeConfig s = .error .unexpectedEOF) ∧
    (∀ (s : List Nat) (n : Nat), 0 < s.length → s.length < n →
      ReadFull s n = .error .unexpectedEOF) ∧
    Decode (hdrBytes ⟨0, 54, 40, 1, 2, 1, 24, 0, 0, 0⟩ ++ [1, 2, 3, 0]) = .error .eof := by
  refine ⟨decodeConfig_short18, decodeConfig_midDIB, ?_, ?_⟩
  · intro s n hpos hlt
    unfold ReadFull
    have hn : ¬ (n ≤ s.length) := by omega
    have h0 : ¬ (s.length = 0) := by omega
    simp [hn, h0]
  · decide

/-- C3 witness: concrete instances of each normalization statement. -/
theorem c3_eof_normalization_witness :
    decodeConfig [66] = .error .unexpectedEOF ∧
    decodeConfig ((hdrBytes ⟨0, 54, 40, 1, 1, 1, 24, 0, 0, 0⟩).take 30) =
      .error .unexpectedEOF ∧
    ReadFull [5] 3 = .error .unexpectedEOF :=
  ⟨c3_eof_normalization.1 [66] (by decide),
   c3_eof_normalization.2.1 ((hdrBytes ⟨0, 54, 40, 1, 1, 1, 24, 0, 0, 0⟩).take 30)
     (by decide) (by decide) (by decide) 40 (by decide) (by decide) (by decide),
   c3_eof_normalization.2.2.1 [5] 3 (by decide) (by decide)⟩

/-! ## C7: straight-alpha conversion on encode -/

/-- The scaled straight-alpha conversion named by the specification:
`((c * 0xFFFF) / alpha) >> 8`. -/
def specStraightAlpha (c a : Nat) : Nat := ((c * 0xFFFF) / a) >>> 8

/-- The naive conversion the specification rules out: `(c * 0xFF) / alpha`. -/
def naiveStraightAlpha (c a : Nat) : Nat := (c * 0xFF) / a

theorem rgbaAlphaPixel_length (r g b a : Nat) : (rgbaAlphaPixel r g b a).length = 4 := by
  unfold rgbaAlphaPixel
  split_ifs <;> rfl

theorem nrgbaAlphaPixel_length (r g b a : Nat) : (nrgbaAlphaPixel r g b a).length = 4 := rfl

theorem flatten_map_range_length (f : Nat → List Nat) (c n : Nat)
    (hf : ∀ x, (f x).length = c) :
    (((List.range n).map f).flatten).length = n * c := by
  induction n with
  | zero => simp
  | succ m ih =>
    rw [List.range_succ, List.map_append, List.flatten_append]
    simp [ih, hf, Nat.succ_mul]

/-- For a non-opaque truecolor encode with `step = 4*dx` (as `Encode` always
sets it), each emitted row is exactly its `dx` converted pixels, and rows come
out bottom-up. -/
theorem encodeTruecolorRows_nonOpaque (ap : Nat → Nat → Nat → Nat → List Nat)
    (hap : ∀ r g b a, (ap r g b a).length = 4)
    (pix : List Nat) (dx stride : Nat) :
    ∀ (dy : Nat) (buf : List Nat), buf.length = 4 * dx →
      encodeTruecolorRows ap pix dx stride false buf dy =
        (((List.range dy).reverse).map (fun y =>
          ((List.range dx).map (fun x =>
            ap (pix.getD (y * stride + 4 * x) 0) (pix.getD (y * stride + 4 * x + 1) 0)
              (pix.getD (y * stride + 4 * x + 2) 0)
              (pix.getD (y * stride + 4 * x + 3) 0))).flatten)).flatten := by
  intro dy
  induction dy with
  | zero => intro buf _; simp [encodeTruecolorRows]
  | succ y ih =>
    intro buf hbuf
    have hdrop : buf.drop (4 * dx) = [] := by
      apply List.drop_eq_nil_of_le
      omega
    have hbody : (((List.range dx).map (fun x =>
        ap (pix.getD (y * stride + 4 * x) 0) (pix.getD (y * stride + 4 * x + 1) 0)
          (pix.getD (y * stride + 4 * x + 2) 0)
          (pix.getD (y * stride + 4 * x + 3) 0))).flatten).length = 4 * dx := by
      rw [flatten_map_range_length _ 4 dx (fun x => hap _ _ _ _)]
      omega
    rw [encodeTruecolorRows, if_neg (by simp), hdrop, List.append_nil,
      ih _ (by simpa using hbody)]
    rw [List.range_succ, List.reverse_append]
    simp

/-- C7: when encoding a premultiplied-alpha buffer (`*image.RGBA`, non-opaque
path), each pixel is converted to straight alpha before packing: alpha 0 gives
four zero bytes; alpha 0xFF copies the channels with no division; otherwise
each channel becomes `((c * 0xFFFF) / alpha) >> 8` — the scaled division, which
differs from the naive `(c * 0xFF) / alpha` (e.g. at c=86, a=173).  The rows
written by `encodeRGBA` are exactly these per-pixel conversions. -/
theorem c7_premultiplied_conversion :
    (∀ r g b a : Nat, r ≤ a → g ≤ a → b ≤ a → a < 256 →
      rgbaAlphaPixel r g b a =
        if a = 0 then [0, 0, 0, 0]
        else if a = 0xFF then [b, g, r, 0xFF]
        else [specStraightAlpha b a, specStraightAlpha g a, specStraightAlpha r a, a]) ∧
    (∀ (pix : List Nat) (dx dy stride : Nat),
      encodeRGBA pix dx dy stride (4 * dx) false =
        (((List.range dy).reverse).map (fun y =>
          ((List.range dx).map (fun x =>
            rgbaAlphaPixel (pix.getD (y * stride + 4 * x) 0)
              (pix.getD (y * stride + 4 * x + 1) 0)
              (pix.getD (y * stride + 4 * x + 2) 0)
              (pix.getD (y * stride + 4 * x + 3) 0))).flatten)).flatten) ∧
    (specStraightAlpha 86 173 = 127 ∧ naiveStraightAlpha 86 173 = 126) := by
  refine ⟨?_, ?_, by decide, by decide⟩
  · intro r g b a hr hg hb ha
    unfold rgbaAlphaPixel specStraightAlpha
    by_cases h0 : a = 0
    · simp [h0]
    · rw [if_neg h0, if_neg h0]
      by_cases h255 : a = 0xFF
      · simp [h255]
      · rw [if_neg h255, if_neg h255]
        have hbound : ∀ c : Nat, c ≤ a → ((c * 0xFFFF) / a) >>> 8 < 256 := by
          intro c hc
          have h1 : c * 0xFFFF ≤ a * 0xFFFF := Nat.mul_le_mul_right _ hc
          have h2 : c * 0xFFFF / a ≤ a * 0xFFFF / a := Nat.div_le_div_right h1
          have h3 : a * 0xFFFF / a = 0xFFFF := by
            rw [Nat.mul_comm, Nat.mul_div_cancel _ (by omega)]
          rw [Nat.shiftRight_eq_div_pow]
          omega
        rw [Nat.mod_eq_of_lt (hbound b hb), Nat.mod_eq_of_lt (hbound g hg),
          Nat.mod_eq_of_lt (hbound r hr), Nat.mod_eq_of_lt ha]
  · intro pix dx dy stride
    exact encodeTruecolorRows_nonOpaque rgbaAlphaPixel rgbaAlphaPixel_length pix dx stride dy
      (List.replicate (4 * dx) 0) (by simp)

/-- C7 witness: the conversion at a concrete premultiplied pixel. -/
theorem c7_premultiplied_conversion_witness :
    rgbaAlphaPixel 10 20 30 128 =
      if (128 : Nat) = 0 then [0, 0, 0, 0]
      else if (128 : Nat) = 0xFF then [30, 20, 10, 0xFF]
      else [specStraightAlpha 30 128, specStraightAlpha 20 128,
            specStraightAlpha 10 128, 128] :=
  c7_premultiplied_conversion.1 10 20 30 128 (by decide) (by decide) (by decide) (by decide)

/-! ## C6: bit-depth selection on encode -/

/-- C6: the bit depth `Encode` selects — indexed (`*image.Paletted`) sources by
palette length (≤2 → 1 bpp, ≤4 → 2, ≤16 → 4, else 8); truecolor
(`*image.RGBA`/`*image.NRGBA`) sources by their `Opaque()` report (24 bpp when
fully opaque, else 32); `*image.Gray` is encoded as 8-bpp indexed and the
generic fallback as 24 bpp.  The final conjunct ties the selected depth to the
bytes actually emitted: the `bpp` field at offset 28 of every encoded output. -/
theorem c6_bpp_selection :
    (∀ p : PalImg, 1 ≤ p.palette.length → p.palette.length ≤ 256 →
      (encodePrepare (.paletted p)).map (fun ep => ep.h.bpp) =
        .ok (if p.palette.length ≤ 2 then 1 else if p.palette.length ≤ 4 then 2
             else if p.palette.length ≤ 16 then 4 else 8)) ∧
    (∀ r : RGBAImg, (encodePrepare (.rgba r)).map (fun ep => ep.h.bpp) =
      .ok (if pixFullAlpha r.pix r.width r.height r.stride then 24 else 32)) ∧
    (∀ r : NRGBAImg, (encodePrepare (.nrgba r)).map (fun ep => ep.h.bpp) =
      .ok (if pixFullAlpha r.pix r.width r.height r.stride then 24 else 32)) ∧
    (∀ g : GrayImg, (encodePrepare (.gray g)).map (fun ep => ep.h.bpp) = .ok 8) ∧
    (∀ (w h : Nat) (at16 : Nat → Nat → Nat × Nat × Nat × Nat),
      (encodePrepare (.generic w h at16)).map (fun ep => ep.h.bpp) = .ok 24) ∧
    (∀ (m : SrcImg) (ep : EncPrep) (out : List Nat),
      encodePrepare m = .ok ep → Encode m = .ok out →
      readUint16 (out.drop 28) = ep.h.bpp % 65536) := by
  refine ⟨?_, ?_, ?_, ?_, ?_, ?_⟩
  · intro p h1 h2
    have hne : ¬ (p.palette.length = 0 ∨ p.palette.length > 256) := by omega
    simp only [encodePrepare, hne, if_neg, if_false, Except.map]
  · intro r
    simp only [encodePrepare, Except.map]
  · intro r
    simp only [encodePrepare, Except.map]
  · intro g
    simp only [encodePrepare, Except.map]
  · intro w h at16
    simp only [encodePrepare, Except.map]
  · intro m ep out h1 h2
    unfold Encode at h2
    rw [h1] at h2
    have h2' : (if srcWidth m = 0 ∨ srcHeight m = 0 then
        Except.ok (hdrBytes ep.h ++ ep.palette)
      else Except.ok (ε := DErr) (hdrBytes ep.h ++ ep.palette ++ encodeRows m ep)) =
        Except.ok out := h2
    by_cases hz : srcWidth m = 0 ∨ srcHeight m = 0
    · rw [if_pos hz] at h2'
      have hout : out = hdrBytes ep.h ++ ep.palette := (Except.ok.inj h2').symm
      rw [hout, hdr_read_bpp]
    · rw [if_neg hz] at h2'
      have hout : out = hdrBytes ep.h ++ ep.palette ++ encodeRows m ep :=
        (Except.ok.inj h2').symm
      rw [hout, List.append_assoc, hdr_read_bpp]

/-- C6 witness: concrete selections for each source kind. -/
theorem c6_bpp_selection_witness :
    (encodePrepare (.paletted ⟨1, 1, 1, [⟨0, 0, 0, 255⟩, ⟨1, 1, 1, 255⟩, ⟨2, 2, 2, 255⟩],
      [0]⟩)).map (fun ep => ep.h.bpp) =
      .ok (if (3 : Nat) ≤ 2 then 1 else if (3 : Nat) ≤ 4 then 2
           else if (3 : Nat) ≤ 16 then 4 else 8) ∧
    (encodePrepare (.rgba ⟨1, 1, 4, [5, 6, 7, 200]⟩)).map (fun ep => ep.h.bpp) =
      .ok (if pixFullAlpha [5, 6, 7, 200] 1 1 4 then 24 else 32) :=
  ⟨c6_bpp_selection.1 ⟨1, 1, 1, [⟨0, 0, 0, 255⟩, ⟨1, 1, 1, 255⟩, ⟨2, 2, 2, 255⟩], [0]⟩
    (by decide) (by decide),
   c6_bpp_selection.2.1 ⟨1, 1, 4, [5, 6, 7, 200]⟩⟩

/-! ## C8: zero-width / zero-height images -/

/-- The pixel buffer of a decoded image. -/
def Img.pixels : Img → List Nat
  | .paletted _ _ _ p => p
  | .rgba _ _ p => p
  | .nrgba _ _ p => p

/-- C8: with width 0 or height 0, every decode path returns an empty pixel
buffer and touches no stream byte (the rest of the stream is returned
unchanged — zero row reads), and `Encode` emits exactly the header plus the
palette (when one was built) and performs no row writes. -/
theorem c8_zero_dims :
    (∀ (d : Dec) (s : List Nat), (d.width = 0 ∨ d.height = 0) →
      (d.bpp = 1 ∨ d.bpp = 2 ∨ d.bpp = 4 ∨ d.bpp = 8 ∨ d.bpp = 16 ∨ d.bpp = 24 ∨
        d.bpp = 32) →
      ∃ img : Img, decodeImage d s = .ok (img, s) ∧ img.pixels = []) ∧
    (∀ (m : SrcImg) (ep : EncPrep), encodePrepare m = .ok ep →
      (srcWidth m = 0 ∨ srcHeight m = 0) →
      Encode m = .ok (hdrBytes ep.h ++ ep.palette)) := by
  constructor
  · intro d s hz hbpp
    by_cases hr : d.rle
    · exact ⟨.paletted d.width d.height (d.palette.getD []) [],
        by simp [decodeImage, hr, decodeRLE, hz], rfl⟩
    · rcases hbpp with hb | hb | hb | hb | hb | hb | hb
      · exact ⟨.paletted d.width d.height (d.palette.getD []) [],
          by simp [decodeImage, hr, decodeSmallPaletted, hz, hb], rfl⟩
      · exact ⟨.paletted d.width d.height (d.palette.getD []) [],
          by simp [decodeImage, hr, decodeSmallPaletted, hz, hb], rfl⟩
      · exact ⟨.paletted d.width d.height (d.palette.getD []) [],
          by simp [decodeImage, hr, decodeSmallPaletted, hz, hb], rfl⟩
      · exact ⟨.paletted d.width d.height (d.palette.getD []) [],
          by simp [decodeImage, hr, decodePaletted, hz, hb], rfl⟩
      · exact ⟨.rgba d.width d.height [],
          by simp [decodeImage, hr, decodeRGB5x5, hz, hb], rfl⟩
      · exact ⟨.rgba d.width d.height [],
          by simp [decodeImage, hr, decodeRGB, hz, hb], rfl⟩
      · exact ⟨.nrgba d.width d.height [],
          by simp [decodeImage, hr, decodeNRGBA, hz, hb], rfl⟩
  · intro m ep h1 hz
    unfold Encode
    rw [h1]
    have : (if srcWidth m = 0 ∨ srcHeight m = 0 then
        Except.ok (hdrBytes ep.h ++ ep.palette)
      else Except.ok (ε := DErr) (hdrBytes ep.h ++ ep.palette ++ encodeRows m ep)) =
        Except.ok (hdrBytes ep.h ++ ep.palette) := if_pos hz
    exact this

set_option maxRecDepth 100000 in
/-- C8 witness: a 24-bpp decoder with width 0, and a zero-width gray encode. -/
theorem c8_zero_dims_witness :
    (∃ img : Img, decodeImage ⟨0, 3, none, 24, false, false, false, false⟩ [9, 9] =
      .ok (img, [9, 9]) ∧ img.pixels = []) ∧
    Encode (.gray ⟨0, 2, 0, []⟩) =
      .ok (hdrBytes ⟨1078, 1078, 40, 0, 2, 1, 8, 0, 0, 0⟩ ++ grayPaletteBytes) :=
  ⟨c8_zero_dims.1 ⟨0, 3, none, 24, false, false, false, false⟩ [9, 9] (by decide)
      (by decide),
   c8_zero_dims.2 (.gray ⟨0, 2, 0, []⟩) ⟨⟨1078, 1078, 40, 0, 2, 1, 8, 0, 0, 0⟩,
      grayPaletteBytes, 0, false⟩ (by decide) (by decide)⟩

/-! ## Parsing a serialized header back -/

theorem readUint32_take_drop (l : List Nat) (n k : Nat) (hk : k + 4 ≤ n) :
    readUint32 ((l.take n).drop k) = readUint32 (l.drop k) := by
  rw [readUint32_drop, readUint32_drop, getD_take l n k (by omega),
    getD_take l n (k + 1) (by omega), getD_take l n (k + 2) (by omega),
    getD_take l n (k + 3) (by omega)]

theorem ReadFullH_hdr18 (h : Header) (rest : List Nat) :
    ReadFullH (hdrBytes h ++ rest) (fileHeaderLen + 4) =
      .ok ((hdrBytes h).take 18, (hdrBytes h).drop 18 ++ rest) := by
  have hs : hdrBytes h ++ rest = (hdrBytes h).take 18 ++ ((hdrBytes h).drop 18 ++ rest) := by
    rw [← List.append_assoc, List.take_append_drop]
  rw [hs]
  exact ReadFullH_prefix' _ _ _ (by simp [List.length_take, hdrBytes_length, fileHeaderLen])

theorem ReadFullH_hdr36 (h : Header) (rest : List Nat) :
    ReadFullH ((hdrBytes h).drop 18 ++ rest) 36 = .ok ((hdrBytes h).drop 18, rest) :=
  ReadFullH_prefix' _ _ _ (by simp [List.length_drop, hdrBytes_length])

theorem toInt32_small (n : Nat) (hn : n < 2 ^ 31) : toInt32 (n % 2 ^ 32) = (n : Int) := by
  rw [Nat.mod_eq_of_lt (by omega), toInt32, if_pos hn]

/-- Parsing a serialized 40-byte-DIB truecolor header (compression 0,
bpp 16/24/32, offset 54): the stream after the 54 header bytes is left
untouched for the pixel decoder. -/
theorem decodeConfig_truecolor (h : Header) (rest : List Nat)
    (hplane : h.colorPlane = 1) (hdib : h.dibHeaderSize = 40)
    (hw : h.width < 2 ^ 31) (hh : h.height < 2 ^ 31)
    (hcomp : h.compression = 0)
    (hbpp : h.bpp = 16 ∨ h.bpp = 24 ∨ h.bpp = 32)
    (hcu : h.colorUse < 2 ^ 32)
    (hoff : h.pixOffset = 54) :
    decodeConfig (hdrBytes h ++ rest) =
      .ok (⟨h.width, h.height, none, h.bpp, false, false, false, false⟩, rest) := by
  have hb18 : ∀ k, k + 4 ≤ 18 →
      readUint32 (((hdrBytes h).take 18).drop k) = readUint32 ((hdrBytes h ++ rest).drop k) := by
    intro k hk
    rw [readUint32_take_drop _ 18 k hk, readUint32_drop, readUint32_drop,
      hdr_getD h rest k (by omega), hdr_getD h rest (k + 1) (by omega),
      hdr_getD h rest (k + 2) (by omega), hdr_getD h rest (k + 3) (by omega)]
  have hoff' : readUint32 (((hdrBytes h).take 18).drop 10) = 54 := by
    rw [hb18 10 (by omega), hdr_read_pixOffset, hoff]
  have hil : readUint32 (((hdrBytes h).take 18).drop 14) = 40 := by
    rw [hb18 14 (by omega), hdr_read_dib, hdib]
  have hjoin : (hdrBytes h).take 18 ++ (hdrBytes h).drop 18 = hdrBytes h :=
    List.take_append_drop _ _
  have hsig : ((hdrBytes h).take 18).getD 0 0 = 66 ∧ ((hdrBytes h).take 18).getD 1 0 = 77 := by
    rw [getD_take _ 18 0 (by omega), getD_take _ 18 1 (by omega)]
    exact ⟨by simpa using hdr_sig0 h [], by simpa using hdr_sig1 h []⟩
  have hwidth : readUint32 ((hdrBytes h).drop 18) = h.width % 2 ^ 32 := by
    simpa using hdr_read_width h []
  have hheight : readUint32 ((hdrBytes h).drop 22) = h.height % 2 ^ 32 := by
    simpa using hdr_read_height h []
  have hplanes : readUint16 ((hdrBytes h).drop 26) = 1 := by
    have := hdr_read_planes h []
    simp only [List.append_nil] at this
    rw [this, hplane]
  have hbppr : readUint16 ((hdrBytes h).drop 28) = h.bpp := by
    have := hdr_read_bpp h []
    simp only [List.append_nil] at this
    rw [this, Nat.mod_eq_of_lt (by rcases hbpp with hb | hb | hb <;> omega)]
  have hcompr : readUint32 ((hdrBytes h).drop 30) = 0 := by
    have := hdr_read_compression h []
    simp only [List.append_nil] at this
    rw [this, hcomp]
  have hwi : toInt32 (readUint32 ((hdrBytes h).drop 18)) = (h.width : Int) := by
    rw [hwidth]; exact toInt32_small _ hw
  have hhi : toInt32 (readUint32 ((hdrBytes h).drop 22)) = (h.height : Int) := by
    rw [hheight]; exact toInt32_small _ hh
  have hbig : ¬ (h.bpp = 1 ∨ h.bpp = 2 ∨ h.bpp = 4 ∨ h.bpp = 8) := by
    rcases hbpp with hb | hb | hb <;> omega
  have hwn : ¬ ((h.width : Int) < 0) := by omega
  have hhn : ¬ ((h.height : Int) < 0) := by omega
  rcases hbpp with hb | hb | hb <;>
    (unfold decodeConfig
     rw [ReadFullH_hdr18 h rest]
     simp only [hsig.1, hsig.2, and_self, if_true, hoff', hil, eq_self_iff_true, true_or]
     rw [show (40 : Nat) - 4 = 36 from rfl, ReadFullH_hdr36 h rest]
     simp [hjoin, hwi, hhi, hcompr, hbppr, hplanes, hhn, hwn, hb, hoff,
       fileHeaderLen, Int.toNat_natCast])

/-- The default RGB masks of a 32-bpp BitFields header
(`0x00FF0000 / 0x0000FF00 / 0x000000FF`), serialized. -/
def defaultMasks32 : List Nat := u32le 0xFF0000 ++ u32le 0xFF00 ++ u32le 0xFF

/-- Parsing a serialized 40-byte-DIB 32-bpp BitFields header whose mask table
equals the default RGB masks (offset 66 = 14+40+12): compression resolves to
none and `noAlpha` is set, because the short header has no alpha mask field. -/
theorem decodeConfig_bitfields32 (h : Header) (rest : List Nat)
    (hplane : h.colorPlane = 1) (hdib : h.dibHeaderSize = 40)
    (hw : h.width < 2 ^ 31) (hh : h.height < 2 ^ 31)
    (hcomp : h.compression = 3) (hbpp : h.bpp = 32)
    (hoff : h.pixOffset = 66) :
    decodeConfig (hdrBytes h ++ defaultMasks32 ++ rest) =
      .ok (⟨h.width, h.height, none, 32, false, false, true, false⟩, rest) := by
  rw [List.append_assoc]
  have hb18 : ∀ k, k + 4 ≤ 18 →
      readUint32 (((hdrBytes h).take 18).drop k) =
        readUint32 ((hdrBytes h ++ (defaultMasks32 ++ rest)).drop k) := by
    intro k hk
    rw [readUint32_take_drop _ 18 k hk, readUint32_drop, readUint32_drop,
      hdr_getD h _ k (by omega), hdr_getD h _ (k + 1) (by omega),
      hdr_getD h _ (k + 2) (by omega), hdr_getD h _ (k + 3) (by omega)]
  have hoff' : readUint32 (((hdrBytes h).take 18).drop 10) = 66 := by
    rw [hb18 10 (by omega), hdr_read_pixOffset, hoff]
  have hil : readUint32 (((hdrBytes h).take 18).drop 14) = 40 := by
    rw [hb18 14 (by omega), hdr_read_dib, hdib]
  have hjoin : (hdrBytes h).take 18 ++ (hdrBytes h).drop 18 = hdrBytes h :=
    List.take_append_drop _ _
  have hsig : ((hdrBytes h).take 18).getD 0 0 = 66 ∧ ((hdrBytes h).take 18).getD 1 0 = 77 := by
    rw [getD_take _ 18 0 (by omega), getD_take _ 18 1 (by omega)]
    exact ⟨by simpa using hdr_sig0 h [], by simpa using hdr_sig1 h []⟩
  have hwi : toInt32 (readUint32 ((hdrBytes h).drop 18)) = (h.width : Int) := by
    have := hdr_read_width h []
    simp only [List.append_nil] at this
    rw [this]; exact toInt32_small _ hw
  have hhi : toInt32 (readUint32 ((hdrBytes h).drop 22)) = (h.height : Int) := by
    have := hdr_read_height h []
    simp only [List.append_nil] at this
    rw [this]; exact toInt32_small _ hh
  have hplanes : readUint16 ((hdrBytes h).drop 26) = 1 := by
    have := hdr_read_planes h []
    simp only [List.append_nil] at this
    rw [this, hplane]
  have hbppr : readUint16 ((hdrBytes h).drop 28) = 32 := by
    have := hdr_read_bpp h []
    simp only [List.append_nil] at this
    rw [this, hbpp]
  have hcompr : readUint32 ((hdrBytes h).drop 30) = 3 := by
    have := hdr_read_compression h []
    simp only [List.append_nil] at this
    rw [this, hcomp]
  have hmaskread : ReadFullH (defaultMasks32 ++ rest) 12 = .ok (defaultMasks32, rest) :=
    ReadFullH_prefix' _ _ _ (by simp [defaultMasks32, u32le])
  have hm1 : readUint32 ((hdrBytes h ++ defaultMasks32).drop 54) = 0xFF0000 := by
    rw [hdr_drop54, defaultMasks32, List.append_assoc, readUint32_u32le]
    norm_num
  have hm2 : readUint32 ((hdrBytes h ++ defaultMasks32).drop 58) = 0xFF00 := by
    rw [show (58 : Nat) = 54 + 4 from rfl, ← List.drop_drop, hdr_drop54]
    rw [show (defaultMasks32.drop 4) = u32le 0xFF00 ++ u32le 0xFF from by
      simp [defaultMasks32, u32le]]
    rw [readUint32_u32le]
    norm_num
  have hm3 : readUint32 ((hdrBytes h ++ defaultMasks32).drop 62) = 0xFF := by
    rw [show (62 : Nat) = 54 + 8 from rfl, ← List.drop_drop, hdr_drop54]
    rw [show (defaultMasks32.drop 8) = u32le 0xFF ++ [] from by
      simp [defaultMasks32, u32le]]
    rw [readUint32_u32le]
    norm_num
  have hwn : ¬ ((h.width : Int) < 0) := by omega
  have hhn : ¬ ((h.height : Int) < 0) := by omega
  unfold decodeConfig
  rw [ReadFullH_hdr18 h (defaultMasks32 ++ rest)]
  simp only [hsig.1, hsig.2, and_self, if_true, hoff', hil, eq_self_iff_true, true_or]
  rw [show (40 : Nat) - 4 = 36 from rfl, ReadFullH_hdr36 h (defaultMasks32 ++ rest)]
  simp [hjoin, hwi, hhi, hcompr, hbppr, hplanes, hhn, hwn, hoff, hmaskread,
    hm1, hm2, hm3, fileHeaderLen, Int.toNat_natCast]

/-! ## Row-reading and pixel-indexing helpers -/

/-- `readRows` on a stream that begins with exactly the expected row chunks. -/
theorem readRows_exact (c : Nat) (rows : List (List Nat))
    (hlen : ∀ r ∈ rows, r.length = c) (rest : List Nat) :
    readRows (fun s => ReadFull s c) rows.length (rows.flatten ++ rest) =
      .ok (rows, rest) := by
  induction rows with
  | nil => simp [readRows]
  | cons r rs ih =>
    have hr : r.length = c := hlen r (by simp)
    have hrest : ∀ x ∈ rs, x.length = c := fun x hx => hlen x (by simp [hx])
    rw [List.length_cons, List.flatten_cons, List.append_assoc, readRows,
      ReadFull_prefix' r _ c hr]
    simp [ih hrest]

theorem getD_append_right (l r : List Nat) (k : Nat) (hk : l.length ≤ k) :
    (l ++ r).getD k 0 = r.getD (k - l.length) 0 := by
  simp [List.getD_eq_getElem?_getD, List.getElem?_append_right hk]

/-- Indexing into a flattened list of per-pixel 4-byte chunks. -/
theorem flatten_map_range_getD4 (f : Nat → List Nat) (w : Nat)
    (hf : ∀ y, (f y).length = 4) (x j : Nat) (hx : x < w) (hj : j < 4) :
    (((List.range w).map f).flatten).getD (4 * x + j) 0 = (f x).getD j 0 := by
  induction w generalizing f x with
  | zero => omega
  | succ n ih =>
    rw [List.range_succ_eq_map, List.map_cons, List.flatten_cons, List.map_map]
    cases x with
    | zero =>
      simp only [Nat.mul_zero, Nat.zero_add]
      exact getD_append_left _ _ j (by rw [hf 0]; omega)
    | succ m =>
      rw [getD_append_right _ _ _ (by rw [hf 0]; omega), hf 0]
      have harg : 4 * (m + 1) + j - 4 = 4 * m + j := by omega
      rw [harg]
      have := ih (fun y => f (y + 1)) (fun y => hf (y + 1)) m (by omega)
      simpa [Function.comp] using this

/-- Indexing the alpha byte in a flattening of full rows, each of length
`4*w` with all alpha positions equal to 255. -/
theorem flatten_rows_alpha (rows : List (List Nat)) (w : Nat)
    (hall : ∀ r ∈ rows, r.length = 4 * w ∧ ∀ x < w, r.getD (4 * x + 3) 0 = 255) :
    ∀ i < rows.length * w, rows.flatten.getD (4 * i + 3) 0 = 255 := by
  induction rows with
  | nil => intro i hi; simp at hi
  | cons r rs ih =>
    intro i hi
    rw [List.flatten_cons]
    obtain ⟨hrl, hra⟩ := hall r (by simp)
    by_cases hx : i < w
    · rw [getD_append_left _ _ _ (by rw [hrl]; omega)]
      exact hra i hx
    · rw [getD_append_right _ _ _ (by rw [hrl]; omega), hrl]
      have harg : 4 * i + 3 - 4 * w = 4 * (i - w) + 3 := by omega
      rw [harg]
      refine ih (fun x hx => hall x (by simp [hx])) (i - w) ?_
      rw [List.length_cons] at hi
      have : rs.length * w + w = (rs.length + 1) * w := by ring
      omega

theorem nrgbaRowPixels_length (noAlpha : Bool) (b : List Nat) (w : Nat) :
    (nrgbaRowPixels noAlpha b w).length = 4 * w := by
  rw [nrgbaRowPixels, flatten_map_range_length _ 4 w (fun x => by split <;> rfl)]
  omega

theorem nrgbaRowPixels_alpha (b : List Nat) (w : Nat) (x : Nat) (hx : x < w) :
    (nrgbaRowPixels true b w).getD (4 * x + 3) 0 = 255 := by
  rw [nrgbaRowPixels,
    flatten_map_range_getD4 _ w (fun y => by split <;> rfl) x 3 hx (by omega)]
  simp

/-! ## C5: 32-bpp BitFields with default masks under the 40-byte header -/

/-- C5: for every 32-bpp BitFields image under the 40-byte DIB header whose
three masks exactly equal the defaults `0x00FF0000/0x0000FF00/0x000000FF`
(offset 66, positive dimensions, bottom-up), decoding succeeds and every
decoded pixel's alpha byte is `0xFF`, whatever the stored fourth byte of each
pixel was: `rows` here is arbitrary row data of the right size. -/
theorem c5_bitfields_noalpha (h : Header) (rows : List (List Nat)) (extra : List Nat)
    (hplane : h.colorPlane = 1) (hdib : h.dibHeaderSize = 40)
    (hw : h.width < 2 ^ 31) (hh : h.height < 2 ^ 31)
    (hcomp : h.compression = 3) (hbpp : h.bpp = 32) (hoff : h.pixOffset = 66)
    (hrows : rows.length = h.height) (hlen : ∀ r ∈ rows, r.length = 4 * h.width) :
    ∃ pix : List Nat,
      Decode (hdrBytes h ++ defaultMasks32 ++ (rows.flatten ++ extra)) =
        .ok (.nrgba h.width h.height pix) ∧
      ∀ i < h.width * h.height, pix.getD (4 * i + 3) 0 = 255 := by
  have hcfg := decodeConfig_bitfields32 h (rows.flatten ++ extra) hplane hdib hw hh
    hcomp hbpp hoff
  by_cases hz : h.width = 0 ∨ h.height = 0
  · refine ⟨[], ?_, by intro i hi; rcases hz with hz | hz <;> simp [hz] at hi⟩
    unfold Decode
    rw [hcfg]
    simp [decodeImage, decodeNRGBA, hz]
  · refine ⟨((rows.map (fun b => nrgbaRowPixels true b h.width)).reverse).flatten, ?_, ?_⟩
    · unfold Decode
      rw [hcfg]
      have hread := readRows_exact (4 * h.width) rows hlen extra
      rw [hrows] at hread
      simp [decodeImage, decodeNRGBA, hz, hread]
    · intro i hi
      refine flatten_rows_alpha _ h.width ?_ i ?_
      · intro r hr
        rw [List.mem_reverse, List.mem_map] at hr
        obtain ⟨b, _hb, hbe⟩ := hr
        refine ⟨by rw [← hbe]; exact nrgbaRowPixels_length true b h.width, ?_⟩
        intro x hx
        rw [← hbe]
        exact nrgbaRowPixels_alpha b h.width x hx
      · simp only [List.length_reverse, List.length_map, hrows]
        rw [Nat.mul_comm]
        exact hi

/-- C5 witness: a 1x1 image whose stored alpha byte is 5 decodes with alpha
255. -/
theorem c5_bitfields_noalpha_witness :
    ∃ pix : List Nat,
      Decode (hdrBytes ⟨0, 66, 40, 1, 1, 1, 32, 3, 0, 0⟩ ++ defaultMasks32 ++
        ([[9, 8, 7, 5]].flatten ++ [])) = .ok (.nrgba 1 1 pix) ∧
      ∀ i < 1 * 1, pix.getD (4 * i + 3) 0 = 255 :=
  c5_bitfields_noalpha ⟨0, 66, 40, 1, 1, 1, 32, 3, 0, 0⟩ [[9, 8, 7, 5]] []
    (by decide) (by decide) (by decide) (by decide) (by decide) (by decide) (by decide)
    (by decide) (by decide)

/-! ## C4: RLE cursor bounds -/

theorem encodePalettedRows_eq (pix : List Nat) (dx stride : Nat) (padding : List Nat) :
    ∀ dy, encodePalettedRows pix dx stride padding dy =
      (((List.range dy).reverse).map (fun y =>
        (pix.drop (y * stride)).take dx ++ padding)).flatten := by
  intro dy
  induction dy with
  | zero => simp [encodePalettedRows]
  | succ y ih =>
    rw [encodePalettedRows, ih, List.range_succ, List.reverse_append]
    simp

set_option maxRecDepth 100000 in
/-- C10: encoding an 8-bit gray buffer uses the 8-bpp indexed path, not the
generic 24-bpp fallback: the prepared format has bit depth 8 and the
1024-byte gray palette whose `i`-th entry is the opaque `(i,i,i)` (stored
B,G,R,0xFF); the emitted bytes are header, palette, then the gray rows
bottom-up, each row being the `width` gray bytes copied from the buffer plus
the zero padding to the 4-byte-aligned row size. -/
theorem c10_gray_encode (g : GrayImg) :
    ∃ ep : EncPrep, encodePrepare (.gray g) = .ok ep ∧ ep.h.bpp = 8 ∧
      ep.palette = grayPaletteBytes ∧ ep.step = align4 (g.width + 3) ∧
      (∀ i < 256, (grayPaletteBytes.drop (4 * i)).take 4 = [i, i, i, 0xFF]) ∧
      (0 < g.width → 0 < g.height →
        Encode (.gray g) = .ok (hdrBytes ep.h ++ grayPaletteBytes ++
          (((List.range g.height).reverse).map (fun y =>
            (g.pix.drop (y * g.stride)).take g.width ++
              List.replicate (ep.step - g.width) 0)).flatten)) := by
  refine ⟨_, rfl, rfl, rfl, rfl, ?_, ?_⟩
  · decide
  · intro hw hh
    have hz : ¬ (srcWidth (.gray g) = 0 ∨ srcHeight (.gray g) = 0) := by
      simp [srcWidth, srcHeight]; omega
    have hstep : (if g.width < align4 (g.width + 3) then
        List.replicate (align4 (g.width + 3) - g.width) 0 else []) =
        List.replicate (align4 (g.width + 3) - g.width) 0 := by
      by_cases hlt : g.width < align4 (g.width + 3)
      · rw [if_pos hlt]
      · rw [if_neg hlt]
        have hle : g.width ≤ align4 (g.width + 3) := by
          have h4 : align4 (g.width + 3) = (g.width + 3) / 4 * 4 := rfl
          have hd := Nat.div_add_mod (g.width + 3) 4
          have hm := Nat.mod_lt (g.width + 3) (show 0 < 4 by omega)
          omega
        have : align4 (g.width + 3) = g.width := by omega
        rw [this]
        simp
    unfold Encode
    simp only [show encodePrepare (SrcImg.gray g) = Except.ok
      { h := { fileSize := (fileHeaderLen + infoHeaderLen + 1024 +
                 g.height * align4 (g.width + 3) % 2 ^ 32) % 2 ^ 32,
               pixOffset := fileHeaderLen + infoHeaderLen + 1024,
               dibHeaderSize := infoHeaderLen, width := g.width, height := g.height,
               colorPlane := 1, bpp := 8, compression := 0,
               imageSize := g.height * align4 (g.width + 3) % 2 ^ 32, colorUse := 0 },
        palette := grayPaletteBytes, step := align4 (g.width + 3), opq := false }
      from rfl]
    rw [if_neg hz]
    show Except.ok (hdrBytes _ ++ grayPaletteBytes ++
      encodePaletted g.pix g.width g.height g.stride (align4 (g.width + 3))) = _
    rw [encodePaletted, hstep, encodePalettedRows_eq]

/-- C10 witness: a concrete 1x1 gray image. -/
theorem c10_gray_encode_witness :
    ∃ ep : EncPrep, encodePrepare (.gray ⟨1, 1, 1, [7]⟩) = .ok ep ∧ ep.h.bpp = 8 ∧
      ep.palette = grayPaletteBytes ∧ ep.step = align4 (1 + 3) ∧
      (∀ i < 256, (grayPaletteBytes.drop (4 * i)).take 4 = [i, i, i, 0xFF]) ∧
      (0 < 1 → 0 < 1 →
        Encode (.gray ⟨1, 1, 1, [7]⟩) = .ok (hdrBytes ep.h ++ grayPaletteBytes ++
          (((List.range 1).reverse).map (fun y =>
            (([7] : List Nat).drop (y * 1)).take 1 ++
              List.replicate (ep.step - 1) 0)).flatten)) :=
  c10_gray_encode ⟨1, 1, 1, [7]⟩

/-! ## C1: encode-then-decode round trips -/

theorem list_eq_of_getD {α : Type} (d : α) (l1 l2 : List α) (hl : l1.length = l2.length)
    (h : ∀ k < l1.length, l1.getD k d = l2.getD k d) : l1 = l2 := by
  apply List.ext_getElem hl
  intro i h1 h2
  have h3 := h i h1
  rwa [List.getD_eq_getElem l1 d h1, List.getD_eq_getElem l2 d h2] at h3

theorem map_getD_range {α : Type} (d : α) (l : List α) :
    (List.range l.length).map (fun i => l.getD i d) = l := by
  apply List.ext_getElem (by simp)
  intro i h1 h2
  simp only [List.getElem_map, List.getElem_range, List.getD_eq_getElem l d h2]

/-- Splitting a buffer of `dy` rows, each of `w` bytes, back into its rows and
flattening recovers the buffer. -/
theorem flatten_chunks (w : Nat) :
    ∀ (dy : Nat) (pix : List Nat), pix.length = dy * w →
      ((List.range dy).map (fun y => (pix.drop (y * w)).take w)).flatten = pix := by
  intro dy
  induction dy with
  | zero =>
    intro pix h
    simp only [Nat.zero_mul] at h
    simp [List.eq_nil_of_length_eq_zero h]
  | succ n ih =>
    intro pix h
    rw [List.range_succ_eq_map, List.map_cons, List.flatten_cons, List.map_map]
    have h2 : (pix.drop w).length = n * w := by
      rw [List.length_drop, h, Nat.succ_mul]
      omega
    have ht := ih (pix.drop w) h2
    simp only [List.drop_drop] at ht
    simp only [show ∀ y : Nat, y * w + w = (y + 1) * w from fun y => by ring,
      show ∀ y : Nat, w + y * w = (y + 1) * w from fun y => by ring] at ht
    simp only [Nat.zero_mul, List.drop_zero]
    have hfun : ((fun y => List.take w (List.drop (y * w) pix)) ∘ Nat.succ) =
        fun y => List.take w (List.drop ((y + 1) * w) pix) := by
      funext y
      simp [Function.comp, Nat.succ_eq_add_one]
    rw [hfun, ht, List.take_append_drop]

/-- Indexing into a flattened list of per-pixel 3-byte chunks. -/
theorem flatten_map_range_getD3 (f : Nat → List Nat) (w : Nat)
    (hf : ∀ y, (f y).length = 3) (x j : Nat) (hx : x < w) (hj : j < 3) :
    (((List.range w).map f).flatten).getD (3 * x + j) 0 = (f x).getD j 0 := by
  induction w generalizing f x with
  | zero => omega
  | succ n ih =>
    rw [List.range_succ_eq_map, List.map_cons, List.flatten_cons, List.map_map]
    cases x with
    | zero =>
      simp only [Nat.mul_zero, Nat.zero_add]
      exact getD_append_left _ _ j (by rw [hf 0]; omega)
    | succ m =>
      rw [getD_append_right _ _ _ (by rw [hf 0]; omega), hf 0]
      have harg : 3 * (m + 1) + j - 3 = 3 * m + j := by omega
      rw [harg]
      have := ih (fun y => f (y + 1)) (fun y => hf (y + 1)) m (by omega)
      simpa [Function.comp] using this

/-- `color.RGBA.RGBA()` followed by `uint8(c >> 8)` recovers the byte. -/
theorem byte_or_shr (b : Nat) (hb : b < 256) : ((b ||| b <<< 8) >>> 8) % 256 = b := by
  apply Nat.eq_of_testBit_eq
  intro i
  rw [testBit_mod256, Nat.testBit_shiftRight, Nat.testBit_lor, Nat.testBit_shiftLeft]
  have h8 : b.testBit (8 + i) = false := by
    apply Nat.testBit_lt_two_pow
    calc b < 256 := hb
      _ = 2 ^ 8 := rfl
      _ ≤ 2 ^ (8 + i) := Nat.pow_le_pow_right (by omega) (by omega)
  by_cases hi : i < 8
  · simp [h8, hi, Nat.add_sub_cancel_left]
  · have hbi : b.testBit i = false := by
      apply Nat.testBit_lt_two_pow
      calc b < 256 := hb
        _ = 2 ^ 8 := rfl
        _ ≤ 2 ^ i := Nat.pow_le_pow_right (by omega) (by omega)
    simp [h8, hi, hbi]

/-- The palette that `buildPaletteLoop` extracts from a buffer beginning with
the `colors*4` palette bytes `pb`. -/
def palFromBytes (pb : List Nat) (colors : Nat) : List RGBAc :=
  (List.range colors).map (fun i =>
    ⟨pb.getD (4 * i + 2) 0, pb.getD (4 * i + 1) 0, pb.getD (4 * i) 0, 0xFF⟩)

theorem buildPaletteGo_prefix (pb junk : List Nat) :
    ∀ (count i : Nat), 4 * (i + count) ≤ pb.length → i + count ≤ 256 →
      buildPaletteGo (pb ++ junk) count i =
        .ok ((List.range count).map (fun k =>
          ⟨pb.getD (4 * (i + k) + 2) 0, pb.getD (4 * (i + k) + 1) 0,
           pb.getD (4 * (i + k)) 0, 0xFF⟩)) := by
  intro count
  induction count with
  | zero => intro i _ _; simp [buildPaletteGo]
  | succ c ih =>
    intro i hlen hle
    rw [buildPaletteGo, if_pos (by omega), ih (i + 1) (by omega) (by omega)]
    rw [getD_append_left pb junk (4 * i + 2) (by omega),
      getD_append_left pb junk (4 * i + 1) (by omega),
      getD_append_left pb junk (4 * i) (by omega)]
    show Except.ok ((⟨pb.getD (4 * i + 2) 0, pb.getD (4 * i + 1) 0, pb.getD (4 * i) 0,
          0xFF⟩ : RGBAc) ::
        (List.range c).map (fun k => (⟨pb.getD (4 * (i + 1 + k) + 2) 0,
          pb.getD (4 * (i + 1 + k) + 1) 0, pb.getD (4 * (i + 1 + k)) 0, 0xFF⟩ : RGBAc))) = _
    rw [List.range_succ_eq_map, List.map_cons, List.map_map]
    refine congrArg Except.ok (congrArg₂ List.cons ?_ ?_)
    · norm_num
    · apply List.map_congr_left
      intro k _
      show (⟨pb.getD (4 * (i + 1 + k) + 2) 0, pb.getD (4 * (i + 1 + k) + 1) 0,
          pb.getD (4 * (i + 1 + k)) 0, 0xFF⟩ : RGBAc) =
        ⟨pb.getD (4 * (i + Nat.succ k) + 2) 0, pb.getD (4 * (i + Nat.succ k) + 1) 0,
          pb.getD (4 * (i + Nat.succ k)) 0, 0xFF⟩
      rw [show i + Nat.succ k = i + 1 + k from by omega]

theorem buildPaletteLoop_prefix (pb junk : List Nat) (colors : Nat)
    (hpb : pb.length = colors * 4) (hcle : colors ≤ 256) :
    buildPaletteLoop (pb ++ junk) colors = .ok (palFromBytes pb colors) := by
  rw [buildPaletteLoop, buildPaletteGo_prefix pb junk colors 0 (by omega) (by omega),
    palFromBytes]
  simp

/-- Parsing a serialized 40-byte-DIB indexed header (compression 0, bpp
1/2/4/8, `colors` palette entries, pixel offset `54 + colors*4`) followed by
the `colors*4` palette bytes `pb`: palette entry `i` becomes
`(pb[4i+2], pb[4i+1], pb[4i], 0xFF)` and the stream after the palette bytes is
handed to the pixel decoder. -/
theorem decodeConfig_indexed (h : Header) (pb rest : List Nat) (colors : Nat)
    (hplane : h.colorPlane = 1) (hdib : h.dibHeaderSize = 40)
    (hw : h.width < 2 ^ 31) (hh : h.height < 2 ^ 31)
    (hcomp : h.compression = 0)
    (hbpp : h.bpp = 1 ∨ h.bpp = 2 ∨ h.bpp = 4 ∨ h.bpp = 8)
    (hcolors : (if h.colorUse = 0 then 1 <<< h.bpp else h.colorUse) = colors)
    (hcu : h.colorUse < 2 ^ 32)
    (hcle : colors ≤ 256)
    (hoff : h.pixOffset = 54 + colors * 4)
    (hpb : pb.length = colors * 4) :
    decodeConfig (hdrBytes h ++ (pb ++ rest)) =
      .ok (⟨h.width, h.height, some (palFromBytes pb colors), h.bpp,
            false, false, false, false⟩, rest) := by
  have hb18 : ∀ k, k + 4 ≤ 18 →
      readUint32 (((hdrBytes h).take 18).drop k) =
        readUint32 ((hdrBytes h ++ (pb ++ rest)).drop k) := by
    intro k hk
    rw [readUint32_take_drop _ 18 k hk, readUint32_drop, readUint32_drop,
      hdr_getD h _ k (by omega), hdr_getD h _ (k + 1) (by omega),
      hdr_getD h _ (k + 2) (by omega), hdr_getD h _ (k + 3) (by omega)]
  have hoff' : readUint32 (((hdrBytes h).take 18).drop 10) = 54 + colors * 4 := by
    rw [hb18 10 (by omega), hdr_read_pixOffset, hoff, Nat.mod_eq_of_lt (by omega)]
  have hil : readUint32 (((hdrBytes h).take 18).drop 14) = 40 := by
    rw [hb18 14 (by omega), hdr_read_dib, hdib]
  have hjoin : (hdrBytes h).take 18 ++ (hdrBytes h).drop 18 = hdrBytes h :=
    List.take_append_drop _ _
  have hsig : ((hdrBytes h).take 18).getD 0 0 = 66 ∧ ((hdrBytes h).take 18).getD 1 0 = 77 := by
    rw [getD_take _ 18 0 (by omega), getD_take _ 18 1 (by omega)]
    exact ⟨by simpa using hdr_sig0 h [], by simpa using hdr_sig1 h []⟩
  have hwi : toInt32 (readUint32 ((hdrBytes h).drop 18)) = (h.width : Int) := by
    have := hdr_read_width h []
    simp only [List.append_nil] at this
    rw [this]; exact toInt32_small _ hw
  have hhi : toInt32 (readUint32 ((hdrBytes h).drop 22)) = (h.height : Int) := by
    have := hdr_read_height h []
    simp only [List.append_nil] at this
    rw [this]; exact toInt32_small _ hh
  have hplanes : readUint16 ((hdrBytes h).drop 26) = 1 := by
    have := hdr_read_planes h []
    simp only [List.append_nil] at this
    rw [this, hplane]
  have hbppr : readUint16 ((hdrBytes h).drop 28) = h.bpp := by
    have := hdr_read_bpp h []
    simp only [List.append_nil] at this
    rw [this, Nat.mod_eq_of_lt (by rcases hbpp with hb | hb | hb | hb <;> omega)]
  have hcompr : readUint32 ((hdrBytes h).drop 30) = 0 := by
    have := hdr_read_compression h []
    simp only [List.append_nil] at this
    rw [this, hcomp]
  have hcoloruse : readUint32 ((hdrBytes h).drop 46) = h.colorUse := by
    have := hdr_read_colorUse h []
    simp only [List.append_nil] at this
    rw [this, Nat.mod_eq_of_lt (show h.colorUse < 4294967296 by omega)]
  have hwn : ¬ ((h.width : Int) < 0) := by omega
  have hhn : ¬ ((h.height : Int) < 0) := by omega
  have hn4 : colors * 4 % 4294967296 = colors * 4 := Nat.mod_eq_of_lt (by omega)
  have hmod54 : (54 + colors * 4) % 4294967296 = 54 + colors * 4 := Nat.mod_eq_of_lt (by omega)
  have hle1024 : colors * 4 ≤ 1024 := by omega
  have hrf : ReadFull (pb ++ rest) (colors * 4) = .ok (pb, rest) :=
    ReadFull_prefix' pb rest _ hpb
  have hbp : ∀ junk, buildPaletteLoop (pb ++ junk) colors = .ok (palFromBytes pb colors) :=
    fun junk => buildPaletteLoop_prefix pb junk colors hpb hcle
  unfold decodeConfig
  rw [ReadFullH_hdr18 h (pb ++ rest)]
  simp only [hsig.1, hsig.2, and_self, if_true, hoff', hil, eq_self_iff_true, true_or]
  rw [show (40 : Nat) - 4 = 36 from rfl, ReadFullH_hdr36 h (pb ++ rest)]
  simp [hjoin, hwi, hhi, hcompr, hbppr, hplanes, hcoloruse, hhn, hwn, hbpp,
    hcolors, hn4, hmod54, hle1024, hrf, hbp, fileHeaderLen, Int.toNat_natCast]

/-- `readRows` on a stream that begins with the encodings of the expected rows
in order, for any per-row reader that consumes exactly one encoded row. -/
theorem readRows_rows (readRow : List Nat → Except DErr (List Nat × List Nat))
    (enc : List Nat → List Nat) (rows : List (List Nat)) (rest : List Nat)
    (hrow : ∀ r ∈ rows, ∀ t, readRow (enc r ++ t) = .ok (r, t)) :
    readRows readRow rows.length ((rows.map enc).flatten ++ rest) = .ok (rows, rest) := by
  induction rows with
  | nil => simp [readRows]
  | cons r rs ih =>
    rw [List.length_cons, List.map_cons, List.flatten_cons, List.append_assoc, readRows,
      hrow r (by simp) _]
    simp [ih (fun x hx t => hrow x (by simp [hx]) t)]

/-- `palettedRow` consumes one written 8-bpp row: `w` index bytes, then the
zero padding up to the 4-byte row boundary. -/
theorem palettedRow_chunk (w : Nat) (r t : List Nat) (hr : r.length = w) :
    palettedRow w ((r ++ List.replicate (align4 (w + 3) - w) 0) ++ t) = .ok (r, t) := by
  rw [palettedRow, List.append_assoc, ReadFull_prefix' r _ w hr]
  show (if w % 4 ≠ 0 then
      (match ReadFull (List.replicate (align4 (w + 3) - w) 0 ++ t) (4 - w % 4) with
        | Except.error e => Except.error e
        | Except.ok (_, s2) => Except.ok (r, s2) : Except DErr (List Nat × List Nat))
    else Except.ok (r, List.replicate (align4 (w + 3) - w) 0 ++ t)) = Except.ok (r, t)
  have halign : align4 (w + 3) = (w + 3) / 4 * 4 := rfl
  by_cases h4 : w % 4 = 0
  · rw [if_neg (by omega)]
    have hz : align4 (w + 3) - w = 0 := by rw [halign]; omega
    rw [hz]
    simp
  · rw [if_pos (by omega)]
    have hlen : (List.replicate (align4 (w + 3) - w) 0).length = 4 - w % 4 := by
      rw [List.length_replicate, halign]
      omega
    rw [ReadFull_prefix' _ t _ hlen]

theorem eq_reverse_range_map {α : Type} (d : α) (f : Nat → α) (l : List α) (n : Nat)
    (hl : l.length = n) (h : ∀ k < n, l.getD k d = f (n - 1 - k)) :
    l = ((List.range n).reverse).map f := by
  apply List.ext_getElem (by simp [hl])
  intro i h1 h2
  have h3 := h i (by omega)
  rw [List.getD_eq_getElem l d h1] at h3
  rw [h3, List.getElem_map, List.getElem_reverse, List.getElem_range]
  simp

/-! ### The small-bpp bit packing loop and its inverse -/

theorem getD_set_ne {α : Type} (d : α) (l : List α) (i j : Nat) (x : α) (hij : i ≠ j) :
    (l.set i x).getD j d = l.getD j d := by
  simp [List.getD_eq_getElem?_getD, List.getElem?_set_ne hij]

theorem getD_set_self {α : Type} (d : α) (l : List α) (i : Nat) (x : α) (hi : i < l.length) :
    (l.set i x).getD i d = x := by
  simp [List.getD_eq_getElem?_getD, List.getElem?_set_self hi]

theorem shiftLeft_lt_pow (x a b : Nat) (hx : x < 2 ^ a) : x <<< b < 2 ^ (a + b) := by
  rw [Nat.shiftLeft_eq, pow_add]
  exact Nat.mul_lt_mul_of_pos_right hx (Nat.two_pow_pos b)

theorem one_shiftLeft_sub_one (bpp : Nat) : (1 <<< bpp - 1 : Nat) = 2 ^ bpp - 1 := by
  rw [Nat.shiftLeft_eq, one_mul]

theorem maskByte_eq (bpp bit : Nat) (h : bit + bpp ≤ 8) :
    (((1 <<< bpp - 1) <<< bit) % 256 : Nat) = (2 ^ bpp - 1) <<< bit := by
  rw [one_shiftLeft_sub_one]
  have h1 : (2 ^ bpp - 1 : Nat) < 2 ^ bpp := by
    have := Nat.two_pow_pos bpp
    omega
  have h2 := shiftLeft_lt_pow _ bpp bit h1
  have h3 : (2 : Nat) ^ (bpp + bit) ≤ 2 ^ 8 := Nat.pow_le_pow_right (by omega) (by omega)
  exact Nat.mod_eq_of_lt (by omega)

theorem valByte_eq (v bpp bit : Nat) (hv : v < 2 ^ bpp) (h : bit + bpp ≤ 8) :
    ((v <<< bit) % 256 : Nat) = v <<< bit := by
  have h2 := shiftLeft_lt_pow v bpp bit hv
  have h3 : (2 : Nat) ^ (bpp + bit) ≤ 2 ^ 8 := Nat.pow_le_pow_right (by omega) (by omega)
  exact Nat.mod_eq_of_lt (by omega)

/-- Writing a `bpp`-bit field at `bit` leaves the bits above the field (below
bit 8) unchanged. -/
theorem packByte_testBit_high (old v bpp bit k : Nat) (hv : v < 2 ^ bpp)
    (hb8 : bit + bpp ≤ 8) (hk : bit + bpp ≤ k) (hk8 : k < 8) :
    ((old &&& (255 ^^^ (((1 <<< bpp - 1) <<< bit) % 256))) |||
      ((v <<< bit) % 256)).testBit k = old.testBit k := by
  rw [maskByte_eq bpp bit hb8, valByte_eq v bpp bit hv hb8,
    Nat.testBit_lor, Nat.testBit_land, Nat.testBit_xor,
    Nat.testBit_shiftLeft, Nat.testBit_shiftLeft,
    show (255 : Nat) = 2 ^ 8 - 1 from rfl, Nat.testBit_two_pow_sub_one,
    Nat.testBit_two_pow_sub_one]
  have h1 : ¬ (k - bit < bpp) := by omega
  have h2 : bit ≤ k := by omega
  have h3 : v.testBit (k - bit) = false :=
    Nat.testBit_lt_two_pow (lt_of_lt_of_le hv (Nat.pow_le_pow_right (by omega) (by omega)))
  simp [h1, h2, h3, hk8]

/-- Reading back the `bpp`-bit field just written at `bit` recovers the value. -/
theorem packByte_extract (old v bpp bit : Nat) (hv : v < 2 ^ bpp) (hb8 : bit + bpp ≤ 8) :
    (((old &&& (255 ^^^ (((1 <<< bpp - 1) <<< bit) % 256))) |||
      ((v <<< bit) % 256)) >>> bit) &&& (1 <<< bpp - 1) = v := by
  rw [maskByte_eq bpp bit hb8, valByte_eq v bpp bit hv hb8, one_shiftLeft_sub_one]
  apply Nat.eq_of_testBit_eq
  intro i
  rw [Nat.testBit_land, Nat.testBit_shiftRight, Nat.testBit_lor, Nat.testBit_land,
    Nat.testBit_xor, Nat.testBit_shiftLeft, Nat.testBit_shiftLeft,
    show (255 : Nat) = 2 ^ 8 - 1 from rfl, Nat.testBit_two_pow_sub_one,
    Nat.testBit_two_pow_sub_one, Nat.testBit_two_pow_sub_one]
  by_cases hi : i < bpp
  · have h2 : bit ≤ bit + i := by omega
    have h3 : bit + i - bit = i := by omega
    have h4 : bit + i < 8 := by omega
    simp [h2, h3, h4, hi]
  · have hv' : v.testBit i = false :=
      Nat.testBit_lt_two_pow (lt_of_lt_of_le hv (Nat.pow_le_pow_right (by omega) (by omega)))
    simp [hi, hv']

theorem packRowPixels_length (bpp : Nat) (l : List Nat) :
    ∀ (b : List Nat) (i bit : Nat), (packRowPixels bpp l b i bit).length = b.length := by
  induction l with
  | nil => intro b i bit; rfl
  | cons v vs ih =>
    intro b i bit
    simp only [packRowPixels]
    by_cases hbit : bit = 0
    · simp only [hbit, eq_self_iff_true, if_true]
      rw [ih, List.length_set]
    · simp only [hbit, if_false]
      rw [ih, List.length_set]

/-- Frame property of the packing loop: a byte strictly before the cursor, or
the bits of the cursor byte above the next field, are never modified. -/
theorem packRowPixels_frame (bpp : Nat) (hbpp0 : 0 < bpp) (hdvd8 : bpp ∣ 8)
    (rest : List Nat) :
    ∀ (b : List Nat) (i bit j k : Nat),
      (∀ v ∈ rest, v < 2 ^ bpp) → bpp ∣ bit → bit + bpp ≤ 8 → k < 8 →
      (j < i ∨ (j = i ∧ bit + bpp ≤ k)) →
      ((packRowPixels bpp rest b i bit).getD j 0).testBit k =
        (b.getD j 0).testBit k := by
  induction rest with
  | nil => intro b i bit j k _ _ _ _ _; rfl
  | cons v vs ih =>
    intro b i bit j k hvals hdvd hle hk8 hcond
    have hv : v < 2 ^ bpp := hvals v (by simp)
    have hb1 : ∀ (w1 : Nat), ((b.set i w1).getD j 0).testBit k = (b.getD j 0).testBit k ∨
        (j = i ∧ i < b.length ∧ ((b.set i w1).getD j 0) = w1) := by
      intro w1
      by_cases hji : j = i
      · subst hji
        by_cases hib : j < b.length
        · exact Or.inr ⟨rfl, hib, getD_set_self 0 b j w1 hib⟩
        · rw [List.set_eq_of_length_le (by omega)]
          exact Or.inl rfl
      · rw [getD_set_ne 0 b i j w1 (fun h => hji h.symm)]
        exact Or.inl rfl
    simp only [packRowPixels]
    by_cases hbit : bit = 0
    · subst hbit
      simp only [eq_self_iff_true, if_true]
      rw [ih _ (i + 1) (8 - bpp) j k (fun x hx => hvals x (by simp [hx]))
        (Nat.dvd_sub' hdvd8 dvd_rfl) (by omega) hk8 (Or.inl (by omega))]
      rcases hb1 ((b.getD i 0 &&& (255 ^^^ (((1 <<< bpp - 1) <<< 0) % 256))) |||
          ((v <<< 0) % 256)) with hc | ⟨hji, hib, hset⟩
      · exact hc
      · subst hji
        rw [hset]
        have hk' : 0 + bpp ≤ k := by
          rcases hcond with hc | ⟨_, hc⟩
          · omega
          · omega
        exact packByte_testBit_high _ v bpp 0 k hv (by omega) hk' hk8
    · simp only [hbit, if_false]
      have hbpge : bpp ≤ bit := Nat.le_of_dvd (by omega) hdvd
      rw [ih _ i (bit - bpp) j k (fun x hx => hvals x (by simp [hx]))
        (Nat.dvd_sub' hdvd dvd_rfl) (by omega) hk8 ?_]
      · rcases hb1 ((b.getD i 0 &&& (255 ^^^ (((1 <<< bpp - 1) <<< bit) % 256))) |||
            ((v <<< bit) % 256)) with hc | ⟨hji, hib, hset⟩
        · exact hc
        · subst hji
          rw [hset]
          have hk' : bit + bpp ≤ k := by
            rcases hcond with hc | ⟨_, hc⟩
            · omega
            · exact hc
          exact packByte_testBit_high _ v bpp bit k hv hle hk' hk8
      · rcases hcond with hc | ⟨hje, hc⟩
        · exact Or.inl hc
        · exact Or.inr ⟨hje, by omega⟩

/-- Unpacking a packed row recovers the pixel values: the inverse of the
writer's small-bpp packing loop at any cursor position with enough buffer. -/
theorem unpackRow_packRowPixels (bpp : Nat) (hbpp0 : 0 < bpp) (hdvd8 : bpp ∣ 8)
    (rowpix : List Nat) :
    ∀ (b : List Nat) (i bit : Nat),
      (∀ v ∈ rowpix, v < 2 ^ bpp) → bpp ∣ bit → bit + bpp ≤ 8 →
      i * 8 + (8 - bpp - bit) + rowpix.length * bpp ≤ b.length * 8 →
      unpackRow bpp (packRowPixels bpp rowpix b i bit) rowpix.length i bit = rowpix := by
  induction rowpix with
  | nil => intro b i bit _ _ _ _; rfl
  | cons v vs ih =>
    intro b i bit hvals hdvd hle hspace
    have hv : v < 2 ^ bpp := hvals v (by simp)
    have hbl : i < b.length := by
      have : bit ≤ 8 - bpp := by omega
      rw [List.length_cons] at hspace
      by_contra hc
      have : b.length ≤ i := by omega
      nlinarith
    have hw1 : ∀ w1, (b.set i w1).getD i 0 = w1 := fun w1 => getD_set_self 0 b i w1 hbl
    have hlen : ∀ w1, (b.set i w1).length = b.length := fun w1 => List.length_set b i w1
    simp only [packRowPixels, List.length_cons]
    by_cases hbit : bit = 0
    · subst hbit
      simp only [eq_self_iff_true, if_true]
      rw [unpackRow, if_pos rfl]
      have hhead : ((packRowPixels bpp vs
          (b.set i ((b.getD i 0 &&& (255 ^^^ (((1 <<< bpp - 1) <<< 0) % 256))) |||
            ((v <<< 0) % 256))) (i + 1) (8 - bpp)).getD i 0 >>> 0) &&&
          (1 <<< bpp - 1) = v := by
        have hfr : ∀ k, k < 8 → ((packRowPixels bpp vs
            (b.set i ((b.getD i 0 &&& (255 ^^^ (((1 <<< bpp - 1) <<< 0) % 256))) |||
              ((v <<< 0) % 256))) (i + 1) (8 - bpp)).getD i 0).testBit k =
            (((b.getD i 0 &&& (255 ^^^ (((1 <<< bpp - 1) <<< 0) % 256))) |||
              ((v <<< 0) % 256))).testBit k := by
          intro k hk
          rw [packRowPixels_frame bpp hbpp0 hdvd8 vs _ (i + 1) (8 - bpp) i k
            (fun x hx => hvals x (by simp [hx])) (Nat.dvd_sub' hdvd8 dvd_rfl) (by omega) hk
            (Or.inl (by omega)), hw1]
        have hx : ((packRowPixels bpp vs
            (b.set i ((b.getD i 0 &&& (255 ^^^ (((1 <<< bpp - 1) <<< 0) % 256))) |||
              ((v <<< 0) % 256))) (i + 1) (8 - bpp)).getD i 0 >>> 0) &&&
            (1 <<< bpp - 1) =
            (((b.getD i 0 &&& (255 ^^^ (((1 <<< bpp - 1) <<< 0) % 256))) |||
              ((v <<< 0) % 256)) >>> 0) &&& (1 <<< bpp - 1) := by
          apply Nat.eq_of_testBit_eq
          intro t
          rw [Nat.testBit_land, Nat.testBit_land, Nat.testBit_shiftRight,
            Nat.testBit_shiftRight]
          by_cases ht : t < 8
          · rw [hfr (0 + t) (by omega)]
          · have hm : (1 <<< bpp - 1 : Nat).testBit t = false := by
              rw [one_shiftLeft_sub_one]
              apply Nat.testBit_lt_two_pow
              have h1 : (2 : Nat) ^ bpp - 1 < 2 ^ bpp := by
                have := Nat.two_pow_pos bpp
                omega
              have h3 : (2 : Nat) ^ bpp ≤ 2 ^ t := Nat.pow_le_pow_right (by omega) (by omega)
              omega
            rw [hm]
            simp
        rw [hx]
        exact packByte_extract (b.getD i 0) v bpp 0 hv (by omega)
      rw [hhead, ih _ (i + 1) (8 - bpp) (fun x hx => hvals x (by simp [hx]))
        (Nat.dvd_sub' hdvd8 dvd_rfl) (by omega)
        (by rw [hlen]; rw [List.length_cons] at hspace
            have hmul : (vs.length + 1) * bpp = vs.length * bpp + bpp := by ring
            omega)]
    · simp only [hbit, if_false]
      have hbpge : bpp ≤ bit := Nat.le_of_dvd (by omega) hdvd
      rw [unpackRow, if_neg hbit]
      have hhead : ((packRowPixels bpp vs
          (b.set i ((b.getD i 0 &&& (255 ^^^ (((1 <<< bpp - 1) <<< bit) % 256))) |||
            ((v <<< bit) % 256))) i (bit - bpp)).getD i 0 >>> bit) &&&
          (1 <<< bpp - 1) = v := by
        have hfr : ∀ k, bit ≤ k → k < 8 → ((packRowPixels bpp vs
            (b.set i ((b.getD i 0 &&& (255 ^^^ (((1 <<< bpp - 1) <<< bit) % 256))) |||
              ((v <<< bit) % 256))) i (bit - bpp)).getD i 0).testBit k =
            (((b.getD i 0 &&& (255 ^^^ (((1 <<< bpp - 1) <<< bit) % 256))) |||
              ((v <<< bit) % 256))).testBit k := by
          intro k hbk hk
          rw [packRowPixels_frame bpp hbpp0 hdvd8 vs _ i (bit - bpp) i k
            (fun x hx => hvals x (by simp [hx])) (Nat.dvd_sub' hdvd dvd_rfl)
            (by omega) hk (Or.inr ⟨rfl, by omega⟩), hw1]
        have hx : ((packRowPixels bpp vs
            (b.set i ((b.getD i 0 &&& (255 ^^^ (((1 <<< bpp - 1) <<< bit) % 256))) |||
              ((v <<< bit) % 256))) i (bit - bpp)).getD i 0 >>> bit) &&&
            (1 <<< bpp - 1) =
            (((b.getD i 0 &&& (255 ^^^ (((1 <<< bpp - 1) <<< bit) % 256))) |||
              ((v <<< bit) % 256)) >>> bit) &&& (1 <<< bpp - 1) := by
          apply Nat.eq_of_testBit_eq
          intro t
          rw [Nat.testBit_land, Nat.testBit_land, Nat.testBit_shiftRight,
            Nat.testBit_shiftRight]
          by_cases ht : bit + t < 8
          · rw [hfr (bit + t) (by omega) (by omega)]
          · have hm : (1 <<< bpp - 1 : Nat).testBit t = false := by
              rw [one_shiftLeft_sub_one]
              apply Nat.testBit_lt_two_pow
              have h1 : (2 : Nat) ^ bpp - 1 < 2 ^ bpp := by
                have := Nat.two_pow_pos bpp
                omega
              have h3 : (2 : Nat) ^ bpp ≤ 2 ^ t := Nat.pow_le_pow_right (by omega) (by omega)
              omega
            rw [hm]
            simp
        rw [hx]
        exact packByte_extract (b.getD i 0) v bpp bit hv hle
      rw [hhead, ih _ i (bit - bpp) (fun x hx => hvals x (by simp [hx]))
        (Nat.dvd_sub' hdvd dvd_rfl) (by omega)
        (by rw [hlen]; rw [List.length_cons] at hspace
            have hmul : (vs.length + 1) * bpp = vs.length * bpp + bpp := by ring
            omega)]

/-- The rows emitted by the small-bpp encoder: one per image row, bottom-up,
each of the buffer's size, and unpacking one recovers its pixel run. -/
theorem encodeSmallPalettedRows_spec (bpp : Nat) (hbpp0 : 0 < bpp) (hdvd8 : bpp ∣ 8)
    (pix : List Nat) (dx stride : Nat) (hvals : ∀ v ∈ pix, v < 2 ^ bpp) :
    ∀ (dy : Nat) (b : List Nat),
      dx * bpp ≤ b.length * 8 →
      (∀ y < dy, y * stride + dx ≤ pix.length) →
      ∃ rows : List (List Nat),
        encodeSmallPalettedRows pix bpp dx stride b dy = rows.flatten ∧
        rows.length = dy ∧ (∀ r ∈ rows, r.length = b.length) ∧
        ∀ k < dy, unpackRow bpp (rows.getD k []) dx 0 (8 - bpp) =
          (pix.drop ((dy - 1 - k) * stride)).take dx := by
  intro dy
  induction dy with
  | zero =>
    intro b _ _
    exact ⟨[], rfl, rfl, by simp, by intro k hk; exact absurd hk (Nat.not_lt_zero k)⟩
  | succ n ih =>
    intro b hsp hrows
    have hrlen : ((pix.drop (n * stride)).take dx).length = dx := by
      rw [List.length_take, List.length_drop]
      have := hrows n (by omega)
      omega
    obtain ⟨rows', h1, h2, h3, h4⟩ :=
      ih (packRowPixels bpp ((pix.drop (n * stride)).take dx) b 0 (8 - bpp))
        (by rw [packRowPixels_length]; exact hsp) (fun y hy => hrows y (by omega))
    refine ⟨packRowPixels bpp ((pix.drop (n * stride)).take dx) b 0 (8 - bpp) :: rows',
      ?_, by simp [h2], ?_, ?_⟩
    · simp only [encodeSmallPalettedRows]
      rw [h1, List.flatten_cons]
    · intro r hr
      rcases List.mem_cons.mp hr with hre | hrm
      · rw [hre, packRowPixels_length]
      · rw [h3 r hrm, packRowPixels_length]
    · intro k hk
      cases k with
      | zero =>
        have hbl8 : bpp ≤ 8 := Nat.le_of_dvd (by omega) hdvd8
        have huk := unpackRow_packRowPixels bpp hbpp0 hdvd8
          ((pix.drop (n * stride)).take dx) b 0 (8 - bpp)
          (fun v hv => hvals v (List.mem_of_mem_drop (List.mem_of_mem_take hv)))
          (Nat.dvd_sub' hdvd8 dvd_rfl) (by omega)
          (by rw [hrlen]; omega)
        rw [hrlen] at huk
        simp only [List.getD_cons_zero]
        rw [show n + 1 - 1 - 0 = n from by omega]
        exact huk
      | succ m =>
        have := h4 m (by omega)
        simp only [List.getD_cons_succ]
        rw [show n + 1 - 1 - (m + 1) = n - 1 - m from by omega]
        exact this

/-- Decoding a small-bpp paletted pixel stream that was just encoded recovers
the pixel indices (stride `w`, tightly packed buffer). -/
theorem decodeSmallPaletted_encode (bpp w dy : Nat) (pal : List RGBAc) (pix : List Nat)
    (hbppv : bpp = 1 ∨ bpp = 2 ∨ bpp = 4)
    (hw : 0 < w) (hdy : 0 < dy)
    (hvals : ∀ v ∈ pix, v < 2 ^ bpp)
    (hpl : pix.length = dy * w) :
    decodeSmallPaletted ⟨w, dy, some pal, bpp, false, false, false, false⟩
      (encodeSmallPaletted pix bpp w dy w (align4 ((w + 8 / bpp - 1) / (8 / bpp) + 3))) =
      .ok (.paletted w dy pal pix, []) := by
  have hbpp0 : 0 < bpp := by rcases hbppv with hb | hb | hb <;> omega
  have hdvd8 : bpp ∣ 8 := by rcases hbppv with hb | hb | hb <;> subst hb <;> decide
  have hsp : w * bpp ≤ (List.replicate (align4 ((w + 8 / bpp - 1) / (8 / bpp) + 3)) 0).length * 8 := by
    rw [List.length_replicate]
    unfold align4
    rcases hbppv with hb | hb | hb <;> subst hb <;> omega
  have hrowsfit : ∀ y < dy, y * w + w ≤ pix.length := by
    intro y hy
    have h1 : (y + 1) * w ≤ dy * w := Nat.mul_le_mul_right w (by omega)
    calc y * w + w = (y + 1) * w := by ring
      _ ≤ dy * w := h1
      _ = pix.length := hpl.symm
  obtain ⟨rows, he, hlen, hrsize, hunp⟩ := encodeSmallPalettedRows_spec bpp hbpp0 hdvd8
    pix w w hvals dy (List.replicate (align4 ((w + 8 / bpp - 1) / (8 / bpp) + 3)) 0)
    hsp hrowsfit
  have hread := readRows_exact (align4 ((w + 8 / bpp - 1) / (8 / bpp) + 3)) rows
    (by intro r hr; rw [hrsize r hr, List.length_replicate]) []
  rw [hlen, List.append_nil] at hread
  have hpr : rows.map (fun bb => unpackRow bpp bb w 0 (8 - bpp)) =
      ((List.range dy).reverse).map (fun y => (pix.drop (y * w)).take w) := by
    apply eq_reverse_range_map [] _ _ dy (by simp [hlen])
    intro k hk
    have hklen : k < rows.length := by omega
    rw [List.getD_eq_getElem _ _ (by simp [hlen]; omega), List.getElem_map,
      ← List.getD_eq_getElem rows [] hklen]
    exact hunp k hk
  rw [encodeSmallPaletted, he]
  simp only [decodeSmallPaletted]
  rw [if_neg (by omega)]
  rw [hread]
  simp only [hpr]
  rw [← List.map_reverse, List.reverse_reverse]
  rw [if_neg (by decide)]
  rw [flatten_chunks w dy pix hpl]
  simp

/-- Decoding an 8-bpp paletted pixel stream that was just encoded recovers the
pixel indices (stride `w`, tightly packed buffer). -/
theorem decodePaletted_encode (w dy : Nat) (pal : List RGBAc) (pix : List Nat)
    (hw : 0 < w) (hdy : 0 < dy) (hpl : pix.length = dy * w) :
    decodePaletted ⟨w, dy, some pal, 8, false, false, false, false⟩
      (encodePaletted pix w dy w (align4 (w + 3))) = .ok (.paletted w dy pal pix, []) := by
  have hrowsfit : ∀ y < dy, y * w + w ≤ pix.length := by
    intro y hy
    have h1 : (y + 1) * w ≤ dy * w := Nat.mul_le_mul_right w (by omega)
    calc y * w + w = (y + 1) * w := by ring
      _ ≤ dy * w := h1
      _ = pix.length := hpl.symm
  have hpad : (if w < align4 (w + 3) then List.replicate (align4 (w + 3) - w) 0 else []) =
      List.replicate (align4 (w + 3) - w) 0 := by
    by_cases hlt : w < align4 (w + 3)
    · rw [if_pos hlt]
    · rw [if_neg hlt]
      have h4 : align4 (w + 3) = (w + 3) / 4 * 4 := rfl
      have : align4 (w + 3) - w = 0 := by omega
      rw [this]
      simp
  have henc : encodePaletted pix w dy w (align4 (w + 3)) =
      ((((List.range dy).reverse).map (fun y => (pix.drop (y * w)).take w)).map
        (fun r => r ++ List.replicate (align4 (w + 3) - w) 0)).flatten ++ [] := by
    rw [encodePaletted, hpad, encodePalettedRows_eq, List.map_map, List.append_nil]
    rfl
  have hrow : ∀ r ∈ ((List.range dy).reverse).map (fun y => (pix.drop (y * w)).take w),
      ∀ t, palettedRow w ((r ++ List.replicate (align4 (w + 3) - w) 0) ++ t) = .ok (r, t) := by
    intro r hr t
    rw [List.mem_map] at hr
    obtain ⟨y, hy, hye⟩ := hr
    rw [List.mem_reverse, List.mem_range] at hy
    have hrl : r.length = w := by
      rw [← hye, List.length_take, List.length_drop]
      have := hrowsfit y hy
      omega
    exact palettedRow_chunk w r t hrl
  have hread := readRows_rows (palettedRow w) (fun r => r ++ List.replicate (align4 (w + 3) - w) 0)
    (((List.range dy).reverse).map (fun y => (pix.drop (y * w)).take w)) [] hrow
  rw [show (((List.range dy).reverse).map (fun y => (pix.drop (y * w)).take w)).length = dy
    from by simp] at hread
  rw [henc]
  simp only [decodePaletted]
  rw [if_neg (by omega)]
  simp only [hread]
  rw [← List.map_reverse, List.reverse_reverse]
  rw [if_neg (by decide)]
  rw [flatten_chunks w dy pix hpl]
  simp

theorem flatten_map_range_getD4_zero (f : Nat → List Nat) (w : Nat)
    (hf : ∀ y, (f y).length = 4) (x : Nat) (hx : x < w) :
    (((List.range w).map f).flatten).getD (4 * x) 0 = (f x).getD 0 0 := by
  have := flatten_map_range_getD4 f w hf x 0 hx (by omega)
  simpa using this

/-- For an opaque truecolor encode, each emitted row is its `dx` BGR triples
followed by the (never overwritten) tail of the row buffer, bottom-up. -/
theorem encodeTruecolorRows_opaque (ap : Nat → Nat → Nat → Nat → List Nat)
    (pix : List Nat) (dx stride : Nat) (pad : List Nat) :
    ∀ (dy : Nat) (buf : List Nat), buf.drop (3 * dx) = pad →
      encodeTruecolorRows ap pix dx stride true buf dy =
        (((List.range dy).reverse).map
          (fun y => bgrRowBody pix (y * stride) dx ++ pad)).flatten := by
  intro dy
  induction dy with
  | zero => intro buf _; simp [encodeTruecolorRows]
  | succ y ih =>
    intro buf hbuf
    have hblen : (bgrRowBody pix (y * stride) dx).length = 3 * dx := by
      rw [bgrRowBody, flatten_map_range_length (fun x =>
        [pix.getD (y * stride + 4 * x + 2) 0, pix.getD (y * stride + 4 * x + 1) 0,
         pix.getD (y * stride + 4 * x) 0]) 3 dx (fun x => rfl)]
      omega
    have hdrop : (bgrRowBody pix (y * stride) dx ++ pad).drop (3 * dx) = pad := by
      rw [show (3 * dx : Nat) = (bgrRowBody pix (y * stride) dx).length from hblen.symm,
        List.drop_left]
    rw [encodeTruecolorRows, if_pos rfl, hbuf, ih _ hdrop]
    rw [List.range_succ, List.reverse_append]
    simp

/-- A flattened list of per-pixel 4-byte reads is the contiguous pixel slice. -/
theorem flatten_pix_chunks4 (pix : List Nat) (m w : Nat) (hmw : m + 4 * w ≤ pix.length) :
    ((List.range w).map (fun x => [pix.getD (m + 4 * x) 0, pix.getD (m + 4 * x + 1) 0,
      pix.getD (m + 4 * x + 2) 0, pix.getD (m + 4 * x + 3) 0])).flatten =
      (pix.drop m).take (4 * w) := by
  apply list_eq_of_getD 0
  · rw [flatten_map_range_length (fun x => [pix.getD (m + 4 * x) 0, pix.getD (m + 4 * x + 1) 0,
      pix.getD (m + 4 * x + 2) 0, pix.getD (m + 4 * x + 3) 0]) 4 w (fun x => rfl),
      List.length_take, List.length_drop]
    omega
  · intro k hk
    rw [flatten_map_range_length (fun x => [pix.getD (m + 4 * x) 0, pix.getD (m + 4 * x + 1) 0,
      pix.getD (m + 4 * x + 2) 0, pix.getD (m + 4 * x + 3) 0]) 4 w (fun x => rfl)] at hk
    rw [show k = 4 * (k / 4) + k % 4 from by omega,
      flatten_map_range_getD4 _ w (fun x => by rfl) (k / 4) (k % 4) (by omega) (by omega),
      getD_take _ _ _ (by omega), getD_drop]
    have hj4 : k % 4 = 0 ∨ k % 4 = 1 ∨ k % 4 = 2 ∨ k % 4 = 3 := by omega
    rcases hj4 with hj | hj | hj | hj <;> rw [hj]
    · rw [show ∀ a b c d : Nat, ([a, b, c, d] : List Nat).getD 0 0 = a from fun _ _ _ _ => rfl,
        show m + (4 * (k / 4) + 0) = m + 4 * (k / 4) from by omega]
    · rw [show ∀ a b c d : Nat, ([a, b, c, d] : List Nat).getD 1 0 = b from fun _ _ _ _ => rfl,
        show m + (4 * (k / 4) + 1) = m + 4 * (k / 4) + 1 from by omega]
    · rw [show ∀ a b c d : Nat, ([a, b, c, d] : List Nat).getD 2 0 = c from fun _ _ _ _ => rfl,
        show m + (4 * (k / 4) + 2) = m + 4 * (k / 4) + 2 from by omega]
    · rw [show ∀ a b c d : Nat, ([a, b, c, d] : List Nat).getD 3 0 = d from fun _ _ _ _ => rfl,
        show m + (4 * (k / 4) + 3) = m + 4 * (k / 4) + 3 from by omega]

/-- Decoding one BGR row that the opaque truecolor encoder wrote (followed by
its padding) yields the original RGBA pixel reads, given opaque pixels. -/
theorem rgbRowPixels_bgrRowBody (pix pad : List Nat) (m w : Nat)
    (ha : ∀ x < w, pix.getD (m + 4 * x + 3) 0 = 255) :
    rgbRowPixels (bgrRowBody pix m w ++ pad) w =
      ((List.range w).map (fun x => [pix.getD (m + 4 * x) 0, pix.getD (m + 4 * x + 1) 0,
        pix.getD (m + 4 * x + 2) 0, pix.getD (m + 4 * x + 3) 0])).flatten := by
  have hblen : (bgrRowBody pix m w).length = 3 * w := by
    rw [bgrRowBody, flatten_map_range_length (fun x =>
      [pix.getD (m + 4 * x + 2) 0, pix.getD (m + 4 * x + 1) 0,
       pix.getD (m + 4 * x) 0]) 3 w (fun x => rfl)]
    omega
  have hb : ∀ x < w, ∀ j < 3, (bgrRowBody pix m w ++ pad).getD (3 * x + j) 0 =
      ([pix.getD (m + 4 * x + 2) 0, pix.getD (m + 4 * x + 1) 0,
        pix.getD (m + 4 * x) 0]).getD j 0 := by
    intro x hx j hj
    rw [getD_append_left _ _ _ (by rw [hblen]; omega), bgrRowBody,
      flatten_map_range_getD3 _ w (fun y => by rfl) x j hx hj]
  rw [rgbRowPixels]
  apply congrArg List.flatten
  apply List.map_congr_left
  intro x hx
  rw [List.mem_range] at hx
  have h0 := hb x hx 0 (by omega)
  have h1 := hb x hx 1 (by omega)
  have h2 := hb x hx 2 (by omega)
  rw [show (3 * x : Nat) = 3 * x + 0 from by omega] at h0
  rw [h1, h2]
  rw [show (3 * x + 0 : Nat) = 3 * x from by omega] at h0
  rw [h0, ha x hx]
  rfl

/-- Decoding a `decodeRGB` (24-bpp) pixel stream that `encodeRGBA`'s opaque
path just wrote recovers the pixel buffer exactly (stride `4*w`). -/
theorem decodeRGB_encode (w dy : Nat) (pix : List Nat)
    (hw : 0 < w) (hdy : 0 < dy) (hpl : pix.length = dy * (4 * w))
    (hopq : ∀ y < dy, ∀ x < w, pix.getD (y * (4 * w) + 4 * x + 3) 0 = 255) :
    decodeRGB ⟨w, dy, none, 24, false, false, false, false⟩
      (encodeRGBA pix w dy (4 * w) (align4 (3 * w + 3)) true) = .ok (.rgba w dy pix, []) := by
  have h3w : 3 * w ≤ align4 (3 * w + 3) := by unfold align4; omega
  have hrowsfit : ∀ y < dy, y * (4 * w) + 4 * w ≤ pix.length := by
    intro y hy
    have h1 : (y + 1) * (4 * w) ≤ dy * (4 * w) := Nat.mul_le_mul_right (4 * w) (by omega)
    calc y * (4 * w) + 4 * w = (y + 1) * (4 * w) := by ring
      _ ≤ dy * (4 * w) := h1
      _ = pix.length := hpl.symm
  have henc := encodeTruecolorRows_opaque rgbaAlphaPixel pix w (4 * w)
    (List.replicate (align4 (3 * w + 3) - 3 * w) 0) dy
    (List.replicate (align4 (3 * w + 3)) 0) (by rw [List.drop_replicate])
  have hrlen : ∀ r ∈ ((List.range dy).reverse).map
      (fun y => bgrRowBody pix (y * (4 * w)) w ++
        List.replicate (align4 (3 * w + 3) - 3 * w) 0),
      r.length = align4 (3 * w + 3) := by
    intro r hr
    rw [List.mem_map] at hr
    obtain ⟨y, _, hye⟩ := hr
    rw [← hye, List.length_append, List.length_replicate, bgrRowBody,
      flatten_map_range_length (fun x =>
        [pix.getD (y * (4 * w) + 4 * x + 2) 0, pix.getD (y * (4 * w) + 4 * x + 1) 0,
         pix.getD (y * (4 * w) + 4 * x) 0]) 3 w (fun x => rfl)]
    omega
  have hread := readRows_exact (align4 (3 * w + 3))
    (((List.range dy).reverse).map (fun y => bgrRowBody pix (y * (4 * w)) w ++
      List.replicate (align4 (3 * w + 3) - 3 * w) 0)) hrlen []
  rw [List.append_nil, show ((((List.range dy).reverse).map (fun y =>
    bgrRowBody pix (y * (4 * w)) w ++
      List.replicate (align4 (3 * w + 3) - 3 * w) 0))).length = dy from by simp] at hread
  have hrows_eq : (((List.range dy).reverse).map (fun y =>
      bgrRowBody pix (y * (4 * w)) w ++
        List.replicate (align4 (3 * w + 3) - 3 * w) 0)).map (fun b => rgbRowPixels b w) =
      ((List.range dy).reverse).map (fun y => (pix.drop (y * (4 * w))).take (4 * w)) := by
    rw [List.map_map]
    apply List.map_congr_left
    intro y hy
    rw [List.mem_reverse, List.mem_range] at hy
    show rgbRowPixels (bgrRowBody pix (y * (4 * w)) w ++
      List.replicate (align4 (3 * w + 3) - 3 * w) 0) w = _
    rw [rgbRowPixels_bgrRowBody pix _ (y * (4 * w)) w (hopq y hy),
      flatten_pix_chunks4 pix (y * (4 * w)) w (hrowsfit y hy)]
  rw [encodeRGBA, henc]
  simp only [decodeRGB]
  rw [if_neg (by omega)]
  simp only [hread]
  rw [hrows_eq, ← List.map_reverse, List.reverse_reverse]
  rw [if_neg (by decide)]
  rw [flatten_chunks (4 * w) dy pix hpl]


/-- Decoding one BGRA row that the non-opaque NRGBA encoder wrote yields the
original RGBA pixel reads (alpha preserved). -/
theorem nrgbaRowPixels_chunks (pix : List Nat) (m w : Nat) :
    nrgbaRowPixels false (((List.range w).map (fun x =>
      nrgbaAlphaPixel (pix.getD (m + 4 * x) 0) (pix.getD (m + 4 * x + 1) 0)
        (pix.getD (m + 4 * x + 2) 0) (pix.getD (m + 4 * x + 3) 0))).flatten) w =
    ((List.range w).map (fun x => [pix.getD (m + 4 * x) 0, pix.getD (m + 4 * x + 1) 0,
      pix.getD (m + 4 * x + 2) 0, pix.getD (m + 4 * x + 3) 0])).flatten := by
  rw [nrgbaRowPixels]
  apply congrArg List.flatten
  apply List.map_congr_left
  intro x hx
  rw [List.mem_range] at hx
  rw [flatten_map_range_getD4 _ w (fun y => by rfl) x 2 hx (by omega),
    flatten_map_range_getD4 _ w (fun y => by rfl) x 1 hx (by omega),
    flatten_map_range_getD4_zero _ w (fun y => by rfl) x hx,
    flatten_map_range_getD4 _ w (fun y => by rfl) x 3 hx (by omega)]
  rfl

/-- Decoding a `decodeNRGBA` (32-bpp) pixel stream that `encodeNRGBA`'s
non-opaque path just wrote recovers the pixel buffer exactly (stride `4*w`). -/
theorem decodeNRGBA_encode (w dy : Nat) (pix : List Nat)
    (hw : 0 < w) (hdy : 0 < dy) (hpl : pix.length = dy * (4 * w)) :
    decodeNRGBA ⟨w, dy, none, 32, false, false, false, false⟩
      (encodeNRGBA pix w dy (4 * w) (4 * w) false) = .ok (.nrgba w dy pix, []) := by
  have hrowsfit : ∀ y < dy, y * (4 * w) + 4 * w ≤ pix.length := by
    intro y hy
    have h1 : (y + 1) * (4 * w) ≤ dy * (4 * w) := Nat.mul_le_mul_right (4 * w) (by omega)
    calc y * (4 * w) + 4 * w = (y + 1) * (4 * w) := by ring
      _ ≤ dy * (4 * w) := h1
      _ = pix.length := hpl.symm
  have henc := encodeTruecolorRows_nonOpaque nrgbaAlphaPixel (fun r g b a => rfl)
    pix w (4 * w) dy (List.replicate (4 * w) 0) (by rw [List.length_replicate])
  have hrlen : ∀ r ∈ ((List.range dy).reverse).map (fun y =>
      ((List.range w).map (fun x =>
        nrgbaAlphaPixel (pix.getD (y * (4 * w) + 4 * x) 0) (pix.getD (y * (4 * w) + 4 * x + 1) 0)
          (pix.getD (y * (4 * w) + 4 * x + 2) 0) (pix.getD (y * (4 * w) + 4 * x + 3) 0))).flatten),
      r.length = 4 * w := by
    intro r hr
    rw [List.mem_map] at hr
    obtain ⟨y, _, hye⟩ := hr
    rw [← hye, flatten_map_range_length (fun x =>
      nrgbaAlphaPixel (pix.getD (y * (4 * w) + 4 * x) 0) (pix.getD (y * (4 * w) + 4 * x + 1) 0)
        (pix.getD (y * (4 * w) + 4 * x + 2) 0) (pix.getD (y * (4 * w) + 4 * x + 3) 0))
      4 w (fun x => rfl)]
    omega
  have hread := readRows_exact (4 * w)
    (((List.range dy).reverse).map (fun y =>
      ((List.range w).map (fun x =>
        nrgbaAlphaPixel (pix.getD (y * (4 * w) + 4 * x) 0) (pix.getD (y * (4 * w) + 4 * x + 1) 0)
          (pix.getD (y * (4 * w) + 4 * x + 2) 0)
          (pix.getD (y * (4 * w) + 4 * x + 3) 0))).flatten)) hrlen []
  rw [List.append_nil, show (((List.range dy).reverse).map (fun y =>
      ((List.range w).map (fun x =>
        nrgbaAlphaPixel (pix.getD (y * (4 * w) + 4 * x) 0) (pix.getD (y * (4 * w) + 4 * x + 1) 0)
          (pix.getD (y * (4 * w) + 4 * x + 2) 0)
          (pix.getD (y * (4 * w) + 4 * x + 3) 0))).flatten)).length = dy from by simp] at hread
  have hrows_eq : (((List.range dy).reverse).map (fun y =>
      ((List.range w).map (fun x =>
        nrgbaAlphaPixel (pix.getD (y * (4 * w) + 4 * x) 0) (pix.getD (y * (4 * w) + 4 * x + 1) 0)
          (pix.getD (y * (4 * w) + 4 * x + 2) 0)
          (pix.getD (y * (4 * w) + 4 * x + 3) 0))).flatten)).map
        (fun b => nrgbaRowPixels false b w) =
      ((List.range dy).reverse).map (fun y => (pix.drop (y * (4 * w))).take (4 * w)) := by
    rw [List.map_map]
    apply List.map_congr_left
    intro y hy
    rw [List.mem_reverse, List.mem_range] at hy
    show nrgbaRowPixels false (((List.range w).map (fun x =>
      nrgbaAlphaPixel (pix.getD (y * (4 * w) + 4 * x) 0) (pix.getD (y * (4 * w) + 4 * x + 1) 0)
        (pix.getD (y * (4 * w) + 4 * x + 2) 0)
        (pix.getD (y * (4 * w) + 4 * x + 3) 0))).flatten) w = _
    rw [nrgbaRowPixels_chunks pix (y * (4 * w)) w,
      flatten_pix_chunks4 pix (y * (4 * w)) w (hrowsfit y hy)]
  rw [encodeNRGBA, henc]
  simp only [decodeNRGBA]
  rw [if_neg (by omega)]
  simp only [hread]
  rw [hrows_eq, ← List.map_reverse, List.reverse_reverse]
  rw [if_neg (by decide)]
  rw [flatten_chunks (4 * w) dy pix hpl]


theorem palette_bytes_length (pal : List RGBAc) (colors : Nat) :
    (((List.range colors).map (fun i =>
      let c := rgba16 (pal.getD i ⟨0, 0, 0, 0⟩)
      [(c.2.2.1 >>> 8) % 256, (c.2.1 >>> 8) % 256, (c.1 >>> 8) % 256, 0xFF])).flatten).length
      = colors * 4 :=
  flatten_map_range_length (fun i =>
    let c := rgba16 (pal.getD i ⟨0, 0, 0, 0⟩)
    [(c.2.2.1 >>> 8) % 256, (c.2.1 >>> 8) % 256, (c.1 >>> 8) % 256, 0xFF]) 4 colors
    (fun i => rfl)

/-- Reading back the palette bytes the encoder wrote recovers a hand-built
opaque palette exactly. -/
theorem palFromBytes_enc (pal : List RGBAc)
    (hch : ∀ c ∈ pal, c.r < 256 ∧ c.g < 256 ∧ c.b < 256 ∧ c.a = 255) :
    palFromBytes (((List.range pal.length).map (fun i =>
      let c := rgba16 (pal.getD i ⟨0, 0, 0, 0⟩)
      [(c.2.2.1 >>> 8) % 256, (c.2.1 >>> 8) % 256, (c.1 >>> 8) % 256, 0xFF])).flatten)
      pal.length = pal := by
  rw [palFromBytes]
  apply List.ext_getElem (by simp)
  intro i h1 h2
  rw [List.getElem_map, List.getElem_range]
  have hmem : pal[i] ∈ pal := by
    apply List.getElem_mem
  obtain ⟨hr, hg, hb, ha⟩ := hch pal[i] hmem
  rw [flatten_map_range_getD4 (fun i =>
      let c := rgba16 (pal.getD i ⟨0, 0, 0, 0⟩)
      [(c.2.2.1 >>> 8) % 256, (c.2.1 >>> 8) % 256, (c.1 >>> 8) % 256, 0xFF])
      pal.length (fun y => rfl) i 2 h2 (by omega),
    flatten_map_range_getD4 (fun i =>
      let c := rgba16 (pal.getD i ⟨0, 0, 0, 0⟩)
      [(c.2.2.1 >>> 8) % 256, (c.2.1 >>> 8) % 256, (c.1 >>> 8) % 256, 0xFF])
      pal.length (fun y => rfl) i 1 h2 (by omega),
    flatten_map_range_getD4_zero (fun i =>
      let c := rgba16 (pal.getD i ⟨0, 0, 0, 0⟩)
      [(c.2.2.1 >>> 8) % 256, (c.2.1 >>> 8) % 256, (c.1 >>> 8) % 256, 0xFF])
      pal.length (fun y => rfl) i h2]
  show (⟨(((pal.getD i ⟨0, 0, 0, 0⟩).r ||| (pal.getD i ⟨0, 0, 0, 0⟩).r <<< 8) >>> 8) % 256,
        (((pal.getD i ⟨0, 0, 0, 0⟩).g ||| (pal.getD i ⟨0, 0, 0, 0⟩).g <<< 8) >>> 8) % 256,
        (((pal.getD i ⟨0, 0, 0, 0⟩).b ||| (pal.getD i ⟨0, 0, 0, 0⟩).b <<< 8) >>> 8) % 256,
        0xFF⟩ : RGBAc) = pal[i]
  rw [List.getD_eq_getElem pal ⟨0, 0, 0, 0⟩ h2, byte_or_shr _ hr, byte_or_shr _ hg,
    byte_or_shr _ hb, show (0xFF : Nat) = 255 from rfl, ← ha]

/-- The full paletted round trip: a hand-built opaque palette (any length in
1..256, so any selected depth 1/2/4/8), in-range indices, stride equal to the
width. -/
theorem paletted_roundtrip (p : PalImg) (bpp : Nat)
    (hsel : (if p.palette.length ≤ 2 then 1 else if p.palette.length ≤ 4 then 2
      else if p.palette.length ≤ 16 then 4 else 8) = bpp)
    (hstride : p.stride = p.width)
    (hpix : p.pix.length = p.height * p.width)
    (hw : 0 < p.width) (hh : 0 < p.height)
    (hw31 : p.width < 2 ^ 31) (hh31 : p.height < 2 ^ 31)
    (hpal0 : 0 < p.palette.length) (hpal256 : p.palette.length ≤ 256)
    (hch : ∀ c ∈ p.palette, c.r < 256 ∧ c.g < 256 ∧ c.b < 256 ∧ c.a = 255)
    (hvpix : ∀ v ∈ p.pix, v < p.palette.length) :
    ∃ out, Encode (.paletted p) = .ok out ∧
      Decode out = .ok (.paletted p.width p.height p.palette p.pix) := by
  have hz : ¬ (srcWidth (.paletted p) = 0 ∨ srcHeight (.paletted p) = 0) := by
    simp [srcWidth, srcHeight]
    omega
  have h2p : (1 <<< bpp : Nat) = 2 ^ bpp := by rw [Nat.shiftLeft_eq, one_mul]
  have hcases : (bpp = 1 ∧ p.palette.length ≤ 2) ∨ (bpp = 2 ∧ p.palette.length ≤ 4) ∨
      (bpp = 4 ∧ p.palette.length ≤ 16) ∨ (bpp = 8 ∧ p.palette.length ≤ 256) := by
    by_cases c1 : p.palette.length ≤ 2 <;> by_cases c2 : p.palette.length ≤ 4 <;>
      by_cases c3 : p.palette.length ≤ 16 <;> simp [c1, c2, c3] at hsel <;> omega
  have hbpp4 : bpp = 1 ∨ bpp = 2 ∨ bpp = 4 ∨ bpp = 8 := by
    rcases hcases with ⟨hb, _⟩ | ⟨hb, _⟩ | ⟨hb, _⟩ | ⟨hb, _⟩ <;> omega
  have hle2p : p.palette.length ≤ 2 ^ bpp := by
    rcases hcases with ⟨hb, hl⟩ | ⟨hb, hl⟩ | ⟨hb, hl⟩ | ⟨hb, hl⟩ <;> subst hb <;>
      norm_num <;> omega
  have hcolors_enc : (if p.palette.length < 1 <<< bpp then p.palette.length
      else 1 <<< bpp) = p.palette.length := by
    rw [h2p]
    by_cases hc : p.palette.length < 2 ^ bpp
    · rw [if_pos hc]
    · rw [if_neg hc]
      omega
  have hdec_colors : (if (if p.palette.length < 1 <<< bpp then p.palette.length else 0) = 0
      then 1 <<< bpp else (if p.palette.length < 1 <<< bpp then p.palette.length else 0))
      = p.palette.length := by
    by_cases hc : p.palette.length < 1 <<< bpp
    · rw [if_pos hc, if_neg (by omega)]
    · rw [if_neg hc, if_pos rfl, h2p]
      rw [h2p] at hc
      omega
  have hprep : encodePrepare (.paletted p) = .ok
      ⟨{ fileSize := (fileHeaderLen + infoHeaderLen + p.palette.length * 4 +
           p.height * (if bpp < 8 then align4 ((p.width + 8 / bpp - 1) / (8 / bpp) + 3)
             else align4 (p.width + 3)) % 2 ^ 32) % 2 ^ 32,
         pixOffset := fileHeaderLen + infoHeaderLen + p.palette.length * 4,
         dibHeaderSize := infoHeaderLen, width := p.width, height := p.height,
         colorPlane := 1, bpp := bpp, compression := 0,
         imageSize := p.height * (if bpp < 8 then align4 ((p.width + 8 / bpp - 1) / (8 / bpp) + 3)
           else align4 (p.width + 3)) % 2 ^ 32,
         colorUse := if p.palette.length < 1 <<< bpp then p.palette.length else 0 },
       ((List.range p.palette.length).map (fun i =>
         let c := rgba16 (p.palette.getD i ⟨0, 0, 0, 0⟩)
         [(c.2.2.1 >>> 8) % 256, (c.2.1 >>> 8) % 256, (c.1 >>> 8) % 256, 0xFF])).flatten,
       (if bpp < 8 then align4 ((p.width + 8 / bpp - 1) / (8 / bpp) + 3)
         else align4 (p.width + 3)), false⟩ := by
    simp only [encodePrepare]
    rw [if_neg (by omega)]
    simp only [hsel, hcolors_enc]
  have henc : Encode (.paletted p) = .ok (hdrBytes
      { fileSize := (fileHeaderLen + infoHeaderLen + p.palette.length * 4 +
          p.height * (if bpp < 8 then align4 ((p.width + 8 / bpp - 1) / (8 / bpp) + 3)
            else align4 (p.width + 3)) % 2 ^ 32) % 2 ^ 32,
        pixOffset := fileHeaderLen + infoHeaderLen + p.palette.length * 4,
        dibHeaderSize := infoHeaderLen, width := p.width, height := p.height,
        colorPlane := 1, bpp := bpp, compression := 0,
        imageSize := p.height * (if bpp < 8 then align4 ((p.width + 8 / bpp - 1) / (8 / bpp) + 3)
          else align4 (p.width + 3)) % 2 ^ 32,
        colorUse := if p.palette.length < 1 <<< bpp then p.palette.length else 0 } ++
      (((List.range p.palette.length).map (fun i =>
         let c := rgba16 (p.palette.getD i ⟨0, 0, 0, 0⟩)
         [(c.2.2.1 >>> 8) % 256, (c.2.1 >>> 8) % 256, (c.1 >>> 8) % 256, 0xFF])).flatten ++
       encodeRows (.paletted p)
        ⟨{ fileSize := (fileHeaderLen + infoHeaderLen + p.palette.length * 4 +
             p.height * (if bpp < 8 then align4 ((p.width + 8 / bpp - 1) / (8 / bpp) + 3)
               else align4 (p.width + 3)) % 2 ^ 32) % 2 ^ 32,
           pixOffset := fileHeaderLen + infoHeaderLen + p.palette.length * 4,
           dibHeaderSize := infoHeaderLen, width := p.width, height := p.height,
           colorPlane := 1, bpp := bpp, compression := 0,
           imageSize := p.height * (if bpp < 8 then align4 ((p.width + 8 / bpp - 1) / (8 / bpp) + 3)
             else align4 (p.width + 3)) % 2 ^ 32,
           colorUse := if p.palette.length < 1 <<< bpp then p.palette.length else 0 },
         ((List.range p.palette.length).map (fun i =>
           let c := rgba16 (p.palette.getD i ⟨0, 0, 0, 0⟩)
           [(c.2.2.1 >>> 8) % 256, (c.2.1 >>> 8) % 256, (c.1 >>> 8) % 256, 0xFF])).flatten,
         (if bpp < 8 then align4 ((p.width + 8 / bpp - 1) / (8 / bpp) + 3)
           else align4 (p.width + 3)), false⟩)) := by
    unfold Encode
    simp only [hprep]
    rw [if_neg hz, List.append_assoc]
  have hpb := palette_bytes_length p.palette p.palette.length
  have hcfg := decodeConfig_indexed
    { fileSize := (fileHeaderLen + infoHeaderLen + p.palette.length * 4 +
        p.height * (if bpp < 8 then align4 ((p.width + 8 / bpp - 1) / (8 / bpp) + 3)
          else align4 (p.width + 3)) % 2 ^ 32) % 2 ^ 32,
      pixOffset := fileHeaderLen + infoHeaderLen + p.palette.length * 4,
      dibHeaderSize := infoHeaderLen, width := p.width, height := p.height,
      colorPlane := 1, bpp := bpp, compression := 0,
      imageSize := p.height * (if bpp < 8 then align4 ((p.width + 8 / bpp - 1) / (8 / bpp) + 3)
        else align4 (p.width + 3)) % 2 ^ 32,
      colorUse := if p.palette.length < 1 <<< bpp then p.palette.length else 0 }
    (((List.range p.palette.length).map (fun i =>
      let c := rgba16 (p.palette.getD i ⟨0, 0, 0, 0⟩)
      [(c.2.2.1 >>> 8) % 256, (c.2.1 >>> 8) % 256, (c.1 >>> 8) % 256, 0xFF])).flatten)
    (encodeRows (.paletted p)
      ⟨{ fileSize := (fileHeaderLen + infoHeaderLen + p.palette.length * 4 +
           p.height * (if bpp < 8 then align4 ((p.width + 8 / bpp - 1) / (8 / bpp) + 3)
             else align4 (p.width + 3)) % 2 ^ 32) % 2 ^ 32,
         pixOffset := fileHeaderLen + infoHeaderLen + p.palette.length * 4,
         dibHeaderSize := infoHeaderLen, width := p.width, height := p.height,
         colorPlane := 1, bpp := bpp, compression := 0,
         imageSize := p.height * (if bpp < 8 then align4 ((p.width + 8 / bpp - 1) / (8 / bpp) + 3)
           else align4 (p.width + 3)) % 2 ^ 32,
         colorUse := if p.palette.length < 1 <<< bpp then p.palette.length else 0 },
       ((List.range p.palette.length).map (fun i =>
         let c := rgba16 (p.palette.getD i ⟨0, 0, 0, 0⟩)
         [(c.2.2.1 >>> 8) % 256, (c.2.1 >>> 8) % 256, (c.1 >>> 8) % 256, 0xFF])).flatten,
       (if bpp < 8 then align4 ((p.width + 8 / bpp - 1) / (8 / bpp) + 3)
         else align4 (p.width + 3)), false⟩)
    p.palette.length rfl rfl hw31 hh31 rfl hbpp4 hdec_colors
    (by show (if p.palette.length < 1 <<< bpp then p.palette.length else 0) < 2 ^ 32
        by_cases hc : p.palette.length < 1 <<< bpp
        · rw [if_pos hc]; omega
        · rw [if_neg hc]; omega)
    hpal256
    (by show fileHeaderLen + infoHeaderLen + p.palette.length * 4 = 54 + p.palette.length * 4
        simp [fileHeaderLen, infoHeaderLen])
    hpb
  have hpal := palFromBytes_enc p.palette hch
  refine ⟨_, henc, ?_⟩
  unfold Decode
  simp only [hcfg, hpal]
  rcases hcases with ⟨hb, hl⟩ | ⟨hb, hl⟩ | ⟨hb, hl⟩ | ⟨hb, hl⟩ <;> subst hb
  · have hrows : encodeRows (.paletted p)
        ⟨{ fileSize := (fileHeaderLen + infoHeaderLen + p.palette.length * 4 +
             p.height * (if 1 < 8 then align4 ((p.width + 8 / 1 - 1) / (8 / 1) + 3)
               else align4 (p.width + 3)) % 2 ^ 32) % 2 ^ 32,
           pixOffset := fileHeaderLen + infoHeaderLen + p.palette.length * 4,
           dibHeaderSize := infoHeaderLen, width := p.width, height := p.height,
           colorPlane := 1, bpp := 1, compression := 0,
           imageSize := p.height * (if 1 < 8 then align4 ((p.width + 8 / 1 - 1) / (8 / 1) + 3)
             else align4 (p.width + 3)) % 2 ^ 32,
           colorUse := if p.palette.length < 1 <<< 1 then p.palette.length else 0 },
         ((List.range p.palette.length).map (fun i =>
           let c := rgba16 (p.palette.getD i ⟨0, 0, 0, 0⟩)
           [(c.2.2.1 >>> 8) % 256, (c.2.1 >>> 8) % 256, (c.1 >>> 8) % 256, 0xFF])).flatten,
         (if 1 < 8 then align4 ((p.width + 8 / 1 - 1) / (8 / 1) + 3)
           else align4 (p.width + 3)), false⟩ =
        encodeSmallPaletted p.pix 1 p.width p.height p.width
          (align4 ((p.width + 8 / 1 - 1) / (8 / 1) + 3)) := by
      simp [encodeRows, hstride]
    have himg := decodeSmallPaletted_encode 1 p.width p.height p.palette p.pix
      (by norm_num) hw hh
      (fun v hv => lt_of_lt_of_le (hvpix v hv) (by norm_num; omega)) hpix
    rw [hrows, (show decodeImage ⟨p.width, p.height, some p.palette, 1, false, false, false,
        false⟩ (encodeSmallPaletted p.pix 1 p.width p.height p.width
          (align4 ((p.width + 8 / 1 - 1) / (8 / 1) + 3))) =
        Except.ok (Img.paletted p.width p.height p.palette p.pix, ([] : List Nat)) from himg)]
  · have hrows : encodeRows (.paletted p)
        ⟨{ fileSize := (fileHeaderLen + infoHeaderLen + p.palette.length * 4 +
             p.height * (if 2 < 8 then align4 ((p.width + 8 / 2 - 1) / (8 / 2) + 3)
               else align4 (p.width + 3)) % 2 ^ 32) % 2 ^ 32,
           pixOffset := fileHeaderLen + infoHeaderLen + p.palette.length * 4,
           dibHeaderSize := infoHeaderLen, width := p.width, height := p.height,
           colorPlane := 1, bpp := 2, compression := 0,
           imageSize := p.height * (if 2 < 8 then align4 ((p.width + 8 / 2 - 1) / (8 / 2) + 3)
             else align4 (p.width + 3)) % 2 ^ 32,
           colorUse := if p.palette.length < 1 <<< 2 then p.palette.length else 0 },
         ((List.range p.palette.length).map (fun i =>
           let c := rgba16 (p.palette.getD i ⟨0, 0, 0, 0⟩)
           [(c.2.2.1 >>> 8) % 256, (c.2.1 >>> 8) % 256, (c.1 >>> 8) % 256, 0xFF])).flatten,
         (if 2 < 8 then align4 ((p.width + 8 / 2 - 1) / (8 / 2) + 3)
           else align4 (p.width + 3)), false⟩ =
        encodeSmallPaletted p.pix 2 p.width p.height p.width
          (align4 ((p.width + 8 / 2 - 1) / (8 / 2) + 3)) := by
      simp [encodeRows, hstride]
    have himg := decodeSmallPaletted_encode 2 p.width p.height p.palette p.pix
      (by norm_num) hw hh
      (fun v hv => lt_of_lt_of_le (hvpix v hv) (by norm_num; omega)) hpix
    rw [hrows, (show decodeImage ⟨p.width, p.height, some p.palette, 2, false, false, false,
        false⟩ (encodeSmallPaletted p.pix 2 p.width p.height p.width
          (align4 ((p.width + 8 / 2 - 1) / (8 / 2) + 3))) =
        Except.ok (Img.paletted p.width p.height p.palette p.pix, ([] : List Nat)) from himg)]
  · have hrows : encodeRows (.paletted p)
        ⟨{ fileSize := (fileHeaderLen + infoHeaderLen + p.palette.length * 4 +
             p.height * (if 4 < 8 then align4 ((p.width + 8 / 4 - 1) / (8 / 4) + 3)
               else align4 (p.width + 3)) % 2 ^ 32) % 2 ^ 32,
           pixOffset := fileHeaderLen + infoHeaderLen + p.palette.length * 4,
           dibHeaderSize := infoHeaderLen, width := p.width, height := p.height,
           colorPlane := 1, bpp := 4, compression := 0,
           imageSize := p.height * (if 4 < 8 then align4 ((p.width + 8 / 4 - 1) / (8 / 4) + 3)
             else align4 (p.width + 3)) % 2 ^ 32,
           colorUse := if p.palette.length < 1 <<< 4 then p.palette.length else 0 },
         ((List.range p.palette.length).map (fun i =>
           let c := rgba16 (p.palette.getD i ⟨0, 0, 0, 0⟩)
           [(c.2.2.1 >>> 8) % 256, (c.2.1 >>> 8) % 256, (c.1 >>> 8) % 256, 0xFF])).flatten,
         (if 4 < 8 then align4 ((p.width + 8 / 4 - 1) / (8 / 4) + 3)
           else align4 (p.width + 3)), false⟩ =
        encodeSmallPaletted p.pix 4 p.width p.height p.width
          (align4 ((p.width + 8 / 4 - 1) / (8 / 4) + 3)) := by
      simp [encodeRows, hstride]
    have himg := decodeSmallPaletted_encode 4 p.width p.height p.palette p.pix
      (by norm_num) hw hh
      (fun v hv => lt_of_lt_of_le (hvpix v hv) (by norm_num; omega)) hpix
    rw [hrows, (show decodeImage ⟨p.width, p.height, some p.palette, 4, false, false, false,
        false⟩ (encodeSmallPaletted p.pix 4 p.width p.height p.width
          (align4 ((p.width + 8 / 4 - 1) / (8 / 4) + 3))) =
        Except.ok (Img.paletted p.width p.height p.palette p.pix, ([] : List Nat)) from himg)]
  · have hrows : encodeRows (.paletted p)
        ⟨{ fileSize := (fileHeaderLen + infoHeaderLen + p.palette.length * 4 +
             p.height * (if 8 < 8 then align4 ((p.width + 8 / 8 - 1) / (8 / 8) + 3)
               else align4 (p.width + 3)) % 2 ^ 32) % 2 ^ 32,
           pixOffset := fileHeaderLen + infoHeaderLen + p.palette.length * 4,
           dibHeaderSize := infoHeaderLen, width := p.width, height := p.height,
           colorPlane := 1, bpp := 8, compression := 0,
           imageSize := p.height * (if 8 < 8 then align4 ((p.width + 8 / 8 - 1) / (8 / 8) + 3)
             else align4 (p.width + 3)) % 2 ^ 32,
           colorUse := if p.palette.length < 1 <<< 8 then p.palette.length else 0 },
         ((List.range p.palette.length).map (fun i =>
           let c := rgba16 (p.palette.getD i ⟨0, 0, 0, 0⟩)
           [(c.2.2.1 >>> 8) % 256, (c.2.1 >>> 8) % 256, (c.1 >>> 8) % 256, 0xFF])).flatten,
         (if 8 < 8 then align4 ((p.width + 8 / 8 - 1) / (8 / 8) + 3)
           else align4 (p.width + 3)), false⟩ =
        encodePaletted p.pix p.width p.height p.width (align4 (p.width + 3)) := by
      simp [encodeRows, hstride]
    have himg := decodePaletted_encode p.width p.height p.palette p.pix hw hh hpix
    rw [hrows, (show decodeImage ⟨p.width, p.height, some p.palette, 8, false, false, false,
        false⟩ (encodePaletted p.pix p.width p.height p.width (align4 (p.width + 3))) =
        Except.ok (Img.paletted p.width p.height p.palette p.pix, ([] : List Nat)) from himg)]

/-- The 24-bpp round trip: an opaque premultiplied RGBA image encodes to
24-bpp BGR rows and decodes back to the identical pixel buffer. -/
theorem rgba_roundtrip (r : RGBAImg)
    (hstride : r.stride = 4 * r.width)
    (hpl : r.pix.length = r.height * (4 * r.width))
    (hw : 0 < r.width) (hh : 0 < r.height)
    (hw31 : r.width < 2 ^ 31) (hh31 : r.height < 2 ^ 31)
    (hopq : pixFullAlpha r.pix r.width r.height r.stride = true) :
    ∃ out, Encode (.rgba r) = .ok out ∧ Decode out = .ok (.rgba r.width r.height r.pix) := by
  have hz : ¬ (srcWidth (.rgba r) = 0 ∨ srcHeight (.rgba r) = 0) := by
    simp [srcWidth, srcHeight]
    omega
  have hprep : encodePrepare (.rgba r) = .ok
      ⟨{ fileSize := (fileHeaderLen + infoHeaderLen +
           r.height * align4 (3 * r.width + 3) % 2 ^ 32) % 2 ^ 32,
         pixOffset := fileHeaderLen + infoHeaderLen,
         dibHeaderSize := infoHeaderLen, width := r.width, height := r.height,
         colorPlane := 1, bpp := 24, compression := 0,
         imageSize := r.height * align4 (3 * r.width + 3) % 2 ^ 32, colorUse := 0 },
       [], align4 (3 * r.width + 3), true⟩ := by
    simp [encodePrepare, hopq, fileHeaderLen, infoHeaderLen]
  have henc : Encode (.rgba r) = .ok (hdrBytes
      { fileSize := (fileHeaderLen + infoHeaderLen +
          r.height * align4 (3 * r.width + 3) % 2 ^ 32) % 2 ^ 32,
        pixOffset := fileHeaderLen + infoHeaderLen,
        dibHeaderSize := infoHeaderLen, width := r.width, height := r.height,
        colorPlane := 1, bpp := 24, compression := 0,
        imageSize := r.height * align4 (3 * r.width + 3) % 2 ^ 32, colorUse := 0 } ++
      encodeRows (.rgba r)
        ⟨{ fileSize := (fileHeaderLen + infoHeaderLen +
             r.height * align4 (3 * r.width + 3) % 2 ^ 32) % 2 ^ 32,
           pixOffset := fileHeaderLen + infoHeaderLen,
           dibHeaderSize := infoHeaderLen, width := r.width, height := r.height,
           colorPlane := 1, bpp := 24, compression := 0,
           imageSize := r.height * align4 (3 * r.width + 3) % 2 ^ 32, colorUse := 0 },
         [], align4 (3 * r.width + 3), true⟩) := by
    unfold Encode
    simp only [hprep]
    rw [if_neg hz, List.append_assoc, List.nil_append]
  have hcfg := decodeConfig_truecolor
    { fileSize := (fileHeaderLen + infoHeaderLen +
        r.height * align4 (3 * r.width + 3) % 2 ^ 32) % 2 ^ 32,
      pixOffset := fileHeaderLen + infoHeaderLen,
      dibHeaderSize := infoHeaderLen, width := r.width, height := r.height,
      colorPlane := 1, bpp := 24, compression := 0,
      imageSize := r.height * align4 (3 * r.width + 3) % 2 ^ 32, colorUse := 0 }
    (encodeRows (.rgba r)
      ⟨{ fileSize := (fileHeaderLen + infoHeaderLen +
           r.height * align4 (3 * r.width + 3) % 2 ^ 32) % 2 ^ 32,
         pixOffset := fileHeaderLen + infoHeaderLen,
         dibHeaderSize := infoHeaderLen, width := r.width, height := r.height,
         colorPlane := 1, bpp := 24, compression := 0,
         imageSize := r.height * align4 (3 * r.width + 3) % 2 ^ 32, colorUse := 0 },
       [], align4 (3 * r.width + 3), true⟩)
    rfl rfl hw31 hh31 rfl (Or.inr (Or.inl rfl)) (by norm_num) rfl
  have hrows : encodeRows (.rgba r)
      ⟨{ fileSize := (fileHeaderLen + infoHeaderLen +
           r.height * align4 (3 * r.width + 3) % 2 ^ 32) % 2 ^ 32,
         pixOffset := fileHeaderLen + infoHeaderLen,
         dibHeaderSize := infoHeaderLen, width := r.width, height := r.height,
         colorPlane := 1, bpp := 24, compression := 0,
         imageSize := r.height * align4 (3 * r.width + 3) % 2 ^ 32, colorUse := 0 },
       [], align4 (3 * r.width + 3), true⟩ =
      encodeRGBA r.pix r.width r.height (4 * r.width) (align4 (3 * r.width + 3)) true := by
    simp only [encodeRows]
    rw [hstride]
  have hopq2 : ∀ y < r.height, ∀ x < r.width,
      r.pix.getD (y * (4 * r.width) + 4 * x + 3) 0 = 255 := by
    have h1 : pixFullAlpha r.pix r.width r.height (4 * r.width) = true := by
      rw [← hstride]
      exact hopq
    rw [pixFullAlpha] at h1
    exact of_decide_eq_true h1
  have himg := decodeRGB_encode r.width r.height r.pix hw hh hpl hopq2
  refine ⟨_, henc, ?_⟩
  unfold Decode
  simp only [hcfg]
  rw [hrows, (show decodeImage ⟨r.width, r.height, none, 24, false, false, false, false⟩
      (encodeRGBA r.pix r.width r.height (4 * r.width) (align4 (3 * r.width + 3)) true) =
      Except.ok (Img.rgba r.width r.height r.pix, ([] : List Nat)) from himg)]

/-- The 32-bpp round trip: a non-opaque straight-alpha NRGBA image encodes to
32-bpp BGRA rows and decodes back to the identical pixel buffer, alpha
included. -/
theorem nrgba_roundtrip (n : NRGBAImg)
    (hstride : n.stride = 4 * n.width)
    (hpl : n.pix.length = n.height * (4 * n.width))
    (hw : 0 < n.width) (hh : 0 < n.height)
    (hw31 : n.width < 2 ^ 31) (hh31 : n.height < 2 ^ 31)
    (hopq : pixFullAlpha n.pix n.width n.height n.stride = false) :
    ∃ out, Encode (.nrgba n) = .ok out ∧ Decode out = .ok (.nrgba n.width n.height n.pix) := by
  have hz : ¬ (srcWidth (.nrgba n) = 0 ∨ srcHeight (.nrgba n) = 0) := by
    simp [srcWidth, srcHeight]
    omega
  have hprep : encodePrepare (.nrgba n) = .ok
      ⟨{ fileSize := (fileHeaderLen + infoHeaderLen +
           n.height * (4 * n.width) % 2 ^ 32) % 2 ^ 32,
         pixOffset := fileHeaderLen + infoHeaderLen,
         dibHeaderSize := infoHeaderLen, width := n.width, height := n.height,
         colorPlane := 1, bpp := 32, compression := 0,
         imageSize := n.height * (4 * n.width) % 2 ^ 32, colorUse := 0 },
       [], 4 * n.width, false⟩ := by
    simp [encodePrepare, hopq, fileHeaderLen, infoHeaderLen]
  have henc : Encode (.nrgba n) = .ok (hdrBytes
      { fileSize := (fileHeaderLen + infoHeaderLen +
          n.height * (4 * n.width) % 2 ^ 32) % 2 ^ 32,
        pixOffset := fileHeaderLen + infoHeaderLen,
        dibHeaderSize := infoHeaderLen, width := n.width, height := n.height,
        colorPlane := 1, bpp := 32, compression := 0,
        imageSize := n.height * (4 * n.width) % 2 ^ 32, colorUse := 0 } ++
      encodeRows (.nrgba n)
        ⟨{ fileSize := (fileHeaderLen + infoHeaderLen +
             n.height * (4 * n.width) % 2 ^ 32) % 2 ^ 32,
           pixOffset := fileHeaderLen + infoHeaderLen,
           dibHeaderSize := infoHeaderLen, width := n.width, height := n.height,
           colorPlane := 1, bpp := 32, compression := 0,
           imageSize := n.height * (4 * n.width) % 2 ^ 32, colorUse := 0 },
         [], 4 * n.width, false⟩) := by
    unfold Encode
    simp only [hprep]
    rw [if_neg hz, List.append_assoc, List.nil_append]
  have hcfg := decodeConfig_truecolor
    { fileSize := (fileHeaderLen + infoHeaderLen +
        n.height * (4 * n.width) % 2 ^ 32) % 2 ^ 32,
      pixOffset := fileHeaderLen + infoHeaderLen,
      dibHeaderSize := infoHeaderLen, width := n.width, height := n.height,
      colorPlane := 1, bpp := 32, compression := 0,
      imageSize := n.height * (4 * n.width) % 2 ^ 32, colorUse := 0 }
    (encodeRows (.nrgba n)
      ⟨{ fileSize := (fileHeaderLen + infoHeaderLen +
           n.height * (4 * n.width) % 2 ^ 32) % 2 ^ 32,
         pixOffset := fileHeaderLen + infoHeaderLen,
         dibHeaderSize := infoHeaderLen, width := n.width, height := n.height,
         colorPlane := 1, bpp := 32, compression := 0,
         imageSize := n.height * (4 * n.width) % 2 ^ 32, colorUse := 0 },
       [], 4 * n.width, false⟩)
    rfl rfl hw31 hh31 rfl (Or.inr (Or.inr rfl)) (by norm_num) rfl
  have hrows : encodeRows (.nrgba n)
      ⟨{ fileSize := (fileHeaderLen + infoHeaderLen +
           n.height * (4 * n.width) % 2 ^ 32) % 2 ^ 32,
         pixOffset := fileHeaderLen + infoHeaderLen,
         dibHeaderSize := infoHeaderLen, width := n.width, height := n.height,
         colorPlane := 1, bpp := 32, compression := 0,
         imageSize := n.height * (4 * n.width) % 2 ^ 32, colorUse := 0 },
       [], 4 * n.width, false⟩ =
      encodeNRGBA n.pix n.width n.height (4 * n.width) (4 * n.width) false := by
    simp only [encodeRows]
    rw [hstride]
  have himg := decodeNRGBA_encode n.width n.height n.pix hw hh hpl
  refine ⟨_, henc, ?_⟩
  unfold Decode
  simp only [hcfg]
  rw [hrows, (show decodeImage ⟨n.width, n.height, none, 32, false, false, false, false⟩
      (encodeNRGBA n.pix n.width n.height (4 * n.width) (4 * n.width) false) =
      Except.ok (Img.nrgba n.width n.height n.pix, ([] : List Nat)) from himg)]

/-- C1: encode-then-decode round trips.  (1) Every paletted image with a
hand-built opaque palette (any length 1..256, so the encoder selects bpp 1, 2,
4 or 8 — lengths above 16 exercise the 8-bpp indexed path), in-range pixel
indices and stride equal to the width decodes back to the identical palette
and identical pixel indices.  (2) Every opaque RGBA image (24-bpp path) and
(3) every non-opaque NRGBA image with alpha (32-bpp path), with the canonical
stride `4*width`, decodes back to every pixel value exactly. -/
theorem c1_round_trip :
    (∀ p : PalImg, p.stride = p.width → p.pix.length = p.height * p.width →
      0 < p.width → 0 < p.height → p.width < 2 ^ 31 → p.height < 2 ^ 31 →
      0 < p.palette.length → p.palette.length ≤ 256 →
      (∀ c ∈ p.palette, c.r < 256 ∧ c.g < 256 ∧ c.b < 256 ∧ c.a = 255) →
      (∀ v ∈ p.pix, v < p.palette.length) →
      ∃ out, Encode (.paletted p) = .ok out ∧
        Decode out = .ok (.paletted p.width p.height p.palette p.pix)) ∧
    (∀ r : RGBAImg, r.stride = 4 * r.width → r.pix.length = r.height * (4 * r.width) →
      0 < r.width → 0 < r.height → r.width < 2 ^ 31 → r.height < 2 ^ 31 →
      pixFullAlpha r.pix r.width r.height r.stride = true →
      ∃ out, Encode (.rgba r) = .ok out ∧
        Decode out = .ok (.rgba r.width r.height r.pix)) ∧
    (∀ n : NRGBAImg, n.stride = 4 * n.width → n.pix.length = n.height * (4 * n.width) →
      0 < n.width → 0 < n.height → n.width < 2 ^ 31 → n.height < 2 ^ 31 →
      pixFullAlpha n.pix n.width n.height n.stride = false →
      ∃ out, Encode (.nrgba n) = .ok out ∧
        Decode out = .ok (.nrgba n.width n.height n.pix)) :=
  ⟨fun p h1 h2 h3 h4 h5 h6 h7 h8 h9 h10 =>
    paletted_roundtrip p _ rfl h1 h2 h3 h4 h5 h6 h7 h8 h9 h10,
   fun r h1 h2 h3 h4 h5 h6 h7 => rgba_roundtrip r h1 h2 h3 h4 h5 h6 h7,
   fun n h1 h2 h3 h4 h5 h6 h7 => nrgba_roundtrip n h1 h2 h3 h4 h5 h6 h7⟩

/-- C1 witness: a 2x2 three-color paletted image (2-bpp packing), a 1x1 opaque
RGBA image (24-bpp) and a 1x1 NRGBA image with alpha 5 (32-bpp). -/
theorem c1_round_trip_witness :
    (∃ out, Encode (.paletted ⟨2, 2, 2, [⟨10, 20, 30, 255⟩, ⟨1, 2, 3, 255⟩, ⟨7, 8, 9, 255⟩],
        [0, 1, 2, 0]⟩) = .ok out ∧
      Decode out = .ok (.paletted 2 2 [⟨10, 20, 30, 255⟩, ⟨1, 2, 3, 255⟩, ⟨7, 8, 9, 255⟩]
        [0, 1, 2, 0])) ∧
    (∃ out, Encode (.rgba ⟨1, 1, 4, [9, 8, 7, 255]⟩) = .ok out ∧
      Decode out = .ok (.rgba 1 1 [9, 8, 7, 255])) ∧
    (∃ out, Encode (.nrgba ⟨1, 1, 4, [9, 8, 7, 5]⟩) = .ok out ∧
      Decode out = .ok (.nrgba 1 1 [9, 8, 7, 5])) :=
  ⟨c1_round_trip.1 ⟨2, 2, 2, [⟨10, 20, 30, 255⟩, ⟨1, 2, 3, 255⟩, ⟨7, 8, 9, 255⟩], [0, 1, 2, 0]⟩
      rfl (by decide) (by decide) (by decide) (by decide) (by decide) (by decide) (by decide)
      (by decide) (by decide),
   c1_round_trip.2.1 ⟨1, 1, 4, [9, 8, 7, 255]⟩
      rfl (by decide) (by decide) (by decide) (by decide) (by decide) (by decide),
   c1_round_trip.2.2 ⟨1, 1, 4, [9, 8, 7, 5]⟩
      rfl (by decide) (by decide) (by decide) (by decide) (by decide) (by decide)⟩

end Bmp
